import Mathlib

set_option linter.unusedSectionVars false

/-!
Verification development for the painlessMesh simulator engine.

The definitions in this file are a shallow embedding of the C++ sources:

* `CppHeap` embeds `std::priority_queue` as implemented by libstdc++
  (`__push_heap` / `__adjust_heap` from `bits/stl_heap.h`), instantiated with
  the comparators found in the sources (`DelayedMessage::operator>` and
  `EventScheduler::EventComparator`, both of which compare a single `Nat`
  key).  Machine integers are modelled as `Nat`; the key comparisons never
  overflow in the modelled ranges.
* `NetworkSimulator` embeds `src/network/network_simulator.cpp`.
* `EventScheduler` embeds `src/scenario/event_scheduler.cpp`.
* `NodeManager` embeds `src/core/node_manager.cpp`.
* `VirtualNode` lifecycle embeds `src/core/virtual_node.cpp`.
* The scenario validator embeds `src/config/config_loader.cpp`.
* The partition/heal events embed `src/scenario/events/*.cpp`.

Where the repository ships only a declaration or a caller of a function and
no definition, the embedded definition says so in its doc comment and is
modelled from the specification.
-/

/- ---------------------------------------------------------------------
   Part 1: libstdc++ binary heap (std::priority_queue)
   --------------------------------------------------------------------- -/

namespace CppHeap

variable {α : Type} [Inhabited α]

/-- Index of the parent of heap slot `j` (the `(holeIndex - 1) / 2` of
`bits/stl_heap.h`). -/
def parentI (j : Nat) : Nat := (j - 1) / 2

/-- libstdc++ `std::__push_heap`: sift the value `x` up from the hole index,
moving parents down while `comp(parent, value)`, where for both queues in the
sources `comp a b` is `key a > key b` (a min-heap on the key). -/
def siftUp (k : α → Nat) (v : List α) (x : α) : Nat → List α
  | 0 => v.set 0 x
  | h+1 =>
    if k (v.getD (h / 2) default) > k x then
      siftUp k (v.set (h+1) (v.getD (h / 2) default)) x (h / 2)
    else v.set (h+1) x
  termination_by h => h
  decreasing_by omega

/-- `std::priority_queue::push`: `push_back` followed by `std::push_heap`. -/
def push (k : α → Nat) (v : List α) (x : α) : List α :=
  siftUp k (v ++ [x]) x v.length

/-- The child of heap slot `sc` promoted by `__adjust_heap`: the right child
`2 * (sc + 1)` unless the comparator says the left child is smaller. -/
def minChild (k : α → Nat) (v : List α) (sc : Nat) : Nat :=
  if k (v.getD (2 * (sc + 1)) default) > k (v.getD (2 * (sc + 1) - 1) default)
  then 2 * (sc + 1) - 1 else 2 * (sc + 1)

theorem minChild_bounds (k : α → Nat) (v : List α) (sc : Nat) :
    2 * sc + 1 ≤ minChild k v sc ∧ minChild k v sc ≤ 2 * sc + 2 := by
  unfold minChild
  split <;> omega

/-- Descend phase of libstdc++ `std::__adjust_heap`: move the hole down,
always promoting the smaller child, until the hole is childless; returns the
final vector and hole index. -/
def adjustDesc (k : α → Nat) (len : Nat) (v : List α) (hole sc : Nat) :
    List α × Nat :=
  if sc < (len - 1) / 2 then
    adjustDesc k len (v.set hole (v.getD (minChild k v sc) default))
      (minChild k v sc) (minChild k v sc)
  else
    if len % 2 = 0 ∧ sc = (len - 2) / 2 then
      (v.set hole (v.getD (2 * (sc + 1) - 1) default), 2 * (sc + 1) - 1)
    else (v, hole)
  termination_by (len - sc)
  decreasing_by
    have := minChild_bounds k v sc
    omega

/-- `std::priority_queue::pop`: `std::pop_heap` (move the back value into the
hole left at the root, `__adjust_heap`, then `__push_heap`) followed by
`pop_back`. -/
def pop (k : α → Nat) (v : List α) : List α :=
  if v.length ≤ 1 then []
  else
    let value := v.getD (v.length - 1) default
    let w := v.take (v.length - 1)
    let r := adjustDesc k (v.length - 1) w 0 0
    siftUp k r.1 value r.2

/-- Decidable check of the binary min-heap invariant on the key. -/
def wfb (k : α → Nat) (v : List α) : Bool :=
  (List.range v.length).all fun j =>
    decide (j = 0) || decide (k (v.getD (parentI j) default) ≤ k (v.getD j default))

theorem wfb_iff {k : α → Nat} {v : List α} :
    wfb k v = true ↔
      ∀ j, 0 < j → j < v.length →
        k (v.getD (parentI j) default) ≤ k (v.getD j default) := by
  unfold wfb
  rw [List.all_eq_true]
  constructor
  · intro hall j hj hlen
    have := hall j (List.mem_range.mpr hlen)
    simp only [Bool.or_eq_true, decide_eq_true_eq] at this
    rcases this with h0 | hle
    · omega
    · exact hle
  · intro hwf j hj
    rw [List.mem_range] at hj
    simp only [Bool.or_eq_true, decide_eq_true_eq]
    rcases Nat.eq_zero_or_pos j with h0 | hp
    · exact Or.inl h0
    · exact Or.inr (hwf j hp hj)

/- getD/set helper lemmas -/

theorem getD_set_self {l : List α} {i : Nat} (h : i < l.length) (a d : α) :
    (l.set i a).getD i d = a := by
  rw [List.getD_eq_getElem?_getD, List.getElem?_set_self h]
  rfl

theorem getD_set_ne {l : List α} {i j : Nat} (h : i ≠ j) (a d : α) :
    (l.set i a).getD j d = l.getD j d := by
  rw [List.getD_eq_getElem?_getD, List.getD_eq_getElem?_getD,
    List.getElem?_set_ne h]

theorem getD_take {l : List α} {m j : Nat} (h : j < m) (d : α) :
    (l.take m).getD j d = l.getD j d := by
  rw [List.getD_eq_getElem?_getD, List.getD_eq_getElem?_getD,
    List.getElem?_take_of_lt h]

/- length preservation -/

theorem siftUp_length (k : α → Nat) (x : α) :
    ∀ h v, (siftUp k v x h).length = v.length := by
  intro h
  induction h using Nat.strong_induction_on with
  | _ h ih =>
    intro v
    match h with
    | 0 => simp [siftUp]
    | h+1 =>
      rw [siftUp]
      split
      · rw [ih (h / 2) (by omega)]
        simp
      · simp

theorem adjustDesc_length_aux (k : α → Nat) (len : Nat) :
    ∀ m v hole sc, len - sc ≤ m →
      (adjustDesc k len v hole sc).1.length = v.length := by
  intro m
  induction m with
  | zero =>
    intro v hole sc hm
    unfold adjustDesc
    have hnot : ¬ sc < (len - 1) / 2 := by omega
    rw [if_neg hnot]
    split <;> simp
  | succ m ih =>
    intro v hole sc hm
    unfold adjustDesc
    split
    · rename_i hlt
      rw [ih _ _ _ (by have := minChild_bounds k v sc; omega)]
      simp
    · split <;> simp

theorem adjustDesc_length (k : α → Nat) (len : Nat) (v : List α)
    (hole sc : Nat) : (adjustDesc k len v hole sc).1.length = v.length :=
  adjustDesc_length_aux k len (len - sc) v hole sc (Nat.le_refl _)

theorem pop_length (k : α → Nat) (v : List α) :
    (pop k v).length = v.length - 1 := by
  unfold pop
  split
  · simp
    omega
  · rw [siftUp_length, adjustDesc_length]
    simp

/- index arithmetic -/

theorem parentI_lt {j : Nat} (h : 0 < j) : parentI j < j := by
  unfold parentI
  omega

theorem parentI_child {j h : Nat} (hp : parentI j = h) (hne : j ≠ h) :
    j = 2 * h + 1 ∨ j = 2 * h + 2 := by
  unfold parentI at hp
  omega

/- heap-invariant preservation, following the hole-based argument of
   `bits/stl_heap.h`: the vector is a heap everywhere except at the edges
   incident to the hole, the value sits conceptually in the hole, and the
   grandparent of the hole already bounds the hole's children. -/

/-- Invariant of `__push_heap` seen at hole `h` while sifting `x` up. -/
def SiftInv (k : α → Nat) (v : List α) (x : α) (h : Nat) : Prop :=
  h < v.length ∧
  (∀ j, 0 < j → j < v.length → j ≠ h → parentI j ≠ h →
    k (v.getD (parentI j) default) ≤ k (v.getD j default)) ∧
  (∀ j, j < v.length → parentI j = h → j ≠ h → k x ≤ k (v.getD j default)) ∧
  (0 < h → ∀ j, j < v.length → parentI j = h → j ≠ h →
    k (v.getD (parentI h) default) ≤ k (v.getD j default))

theorem siftUp_wf (k : α → Nat) (x : α) :
    ∀ h v, SiftInv k v x h → wfb k (siftUp k v x h) = true := by
  intro h
  induction h using Nat.strong_induction_on with
  | _ h ih =>
    intro v hinv
    obtain ⟨hlen, h1, h2, h3⟩ := hinv
    match h, hlen, h1, h2, h3 with
    | 0, hlen, h1, h2, h3 =>
      rw [siftUp, wfb_iff]
      intro j hj hjlen
      rw [List.length_set] at hjlen
      by_cases hp0 : parentI j = 0
      · rw [hp0, getD_set_self (by omega) x default,
          getD_set_ne (by omega : (0 : Nat) ≠ j) x default]
        exact h2 j hjlen hp0 (by omega)
      · rw [getD_set_ne (by omega : (0 : Nat) ≠ parentI j) x default,
          getD_set_ne (by omega : (0 : Nat) ≠ j) x default]
        exact h1 j hj hjlen (by omega) hp0
    | h+1, hlen, h1, h2, h3 =>
      have hpar : parentI (h+1) = h / 2 := by unfold parentI; omega
      have hplt : h / 2 < h + 1 := by omega
      rw [siftUp]
      split
      · rename_i hgt
        apply ih (h / 2) hplt
        refine ⟨by rw [List.length_set]; omega, ?_, ?_, ?_⟩
        · intro j hj hjlen hjp hpjp
          rw [List.length_set] at hjlen
          by_cases hj1 : j = h + 1
          · exact absurd (hj1 ▸ hpar) hpjp
          by_cases hpj1 : parentI j = h + 1
          · rw [hpj1, getD_set_self hlen _ default,
              getD_set_ne (by omega : h + 1 ≠ j) _ default]
            exact h3 (by omega) j hjlen hpj1 hj1
          · rw [getD_set_ne (fun hh => hpj1 hh.symm) _ default,
              getD_set_ne (by omega : h + 1 ≠ j) _ default]
            exact h1 j hj hjlen hj1 hpj1
        · intro j hjlen hpj hjne
          rw [List.length_set] at hjlen
          by_cases hj1 : j = h + 1
          · rw [hj1, getD_set_self hlen _ default]
            exact Nat.le_of_lt hgt
          · rw [getD_set_ne (by omega : h + 1 ≠ j) _ default]
            have hj0 : 0 < j := by unfold parentI at hpj; omega
            have hstep := h1 j hj0 hjlen hj1 (by rw [hpj]; omega)
            rw [hpj] at hstep
            exact Nat.le_trans (Nat.le_of_lt hgt) hstep
        · intro hp0 j hjlen hpj hjne
          rw [List.length_set] at hjlen
          have hpp_lt : parentI (h / 2) < h / 2 := parentI_lt hp0
          rw [getD_set_ne (by omega : h + 1 ≠ parentI (h / 2)) _ default]
          have hbase := h1 (h / 2) hp0 (by omega) (by omega) (by omega)
          by_cases hj1 : j = h + 1
          · rw [hj1, getD_set_self hlen _ default]
            exact hbase
          · rw [getD_set_ne (by omega : h + 1 ≠ j) _ default]
            have hj0 : 0 < j := by unfold parentI at hpj; omega
            have hstep := h1 j hj0 hjlen hj1 (by rw [hpj]; omega)
            rw [hpj] at hstep
            exact Nat.le_trans hbase hstep
      · rename_i hle
        rw [wfb_iff]
        intro j hj hjlen
        rw [List.length_set] at hjlen
        by_cases hj1 : j = h + 1
        · subst hj1
          rw [hpar, getD_set_ne (by omega : h + 1 ≠ h / 2) _ default,
            getD_set_self hlen _ default]
          exact Nat.le_of_not_lt hle
        by_cases hpj1 : parentI j = h + 1
        · rw [hpj1, getD_set_self hlen _ default,
            getD_set_ne (by omega : h + 1 ≠ j) _ default]
          exact h2 j hjlen hpj1 hj1
        · rw [getD_set_ne (fun hh => hpj1 hh.symm) _ default,
            getD_set_ne (by omega : h + 1 ≠ j) _ default]
          exact h1 j hj hjlen hj1 hpj1

theorem push_wf (k : α → Nat) (v : List α) (x : α) (hw : wfb k v = true) :
    wfb k (push k v x) = true := by
  unfold push
  apply siftUp_wf
  refine ⟨by simp, ?_, ?_, ?_⟩
  · intro j hj hjlen hjne hpne
    simp only [List.length_append, List.length_singleton] at hjlen
    have hjv : j < v.length := by omega
    have hpv : parentI j < v.length := by have := parentI_lt hj; omega
    rw [List.getD_append _ _ _ _ hjv, List.getD_append _ _ _ _ hpv]
    exact wfb_iff.mp hw j hj hjv
  · intro j hjlen hpj hjne
    simp only [List.length_append, List.length_singleton] at hjlen
    rcases parentI_child hpj hjne with h' | h' <;> omega
  · intro hp0 j hjlen hpj hjne
    simp only [List.length_append, List.length_singleton] at hjlen
    rcases parentI_child hpj hjne with h' | h' <;> omega

/-- Invariant of the descend phase of `__adjust_heap` seen at hole `h`. -/
def DescInv (k : α → Nat) (v : List α) (h : Nat) : Prop :=
  h < v.length ∧
  (∀ j, 0 < j → j < v.length → j ≠ h → parentI j ≠ h →
    k (v.getD (parentI j) default) ≤ k (v.getD j default)) ∧
  (0 < h → ∀ j, j < v.length → parentI j = h → j ≠ h →
    k (v.getD (parentI h) default) ≤ k (v.getD j default))

theorem minChild_le (k : α → Nat) (v : List α) (sc : Nat) {j : Nat}
    (hpj : parentI j = sc) (hne : j ≠ sc) (hj2 : j ≠ minChild k v sc) :
    k (v.getD (minChild k v sc) default) ≤ k (v.getD j default) := by
  have h21 : 2 * (sc + 1) - 1 = 2 * sc + 1 := by omega
  have h22 : 2 * (sc + 1) = 2 * sc + 2 := by omega
  unfold minChild at hj2 ⊢
  rw [h21, h22] at hj2 ⊢
  rcases parentI_child hpj hne with hj | hj <;> subst hj <;>
    by_cases hcmp : k (v.getD (2 * sc + 2) default) > k (v.getD (2 * sc + 1) default) <;>
      first
        | (rw [if_pos hcmp] at hj2 ⊢; try omega)
        | (rw [if_neg hcmp] at hj2 ⊢; try omega)

theorem adjustDesc_wf_aux (k : α → Nat) (len : Nat) :
    ∀ m v sc, len - sc ≤ m → v.length = len → DescInv k v sc →
      DescInv k (adjustDesc k len v sc sc).1 (adjustDesc k len v sc sc).2 ∧
      (∀ j, j < len → parentI j = (adjustDesc k len v sc sc).2 →
        j = (adjustDesc k len v sc sc).2) ∧
      (adjustDesc k len v sc sc).1.length = len := by
  intro m
  induction m with
  | zero =>
    intro v sc hm hvlen hinv
    obtain ⟨hsc, _, _⟩ := hinv
    omega
  | succ m ih =>
    intro v sc hm hvlen hinv
    obtain ⟨hsc, h1, h2⟩ := hinv
    unfold adjustDesc
    split
    · rename_i hloop
      set c := minChild k v sc with hcdef
      have hcb := minChild_bounds k v sc
      have hclen : c < len := by omega
      have hpc : parentI c = sc := by unfold parentI; omega
      have hcne : c ≠ sc := by omega
      apply ih
      · omega
      · rw [List.length_set]; exact hvlen
      · refine ⟨by rw [List.length_set]; omega, ?_, ?_⟩
        · intro j hj hjlen hjc hpjc
          rw [List.length_set] at hjlen
          by_cases hjsc : j = sc
          · subst hjsc
            have hpj_ne : parentI j ≠ j := by have := parentI_lt hj; omega
            rw [getD_set_self (by omega) _ default,
              getD_set_ne (fun hh => hpj_ne hh.symm) _ default]
            exact h2 hj c (by omega) hpc hcne
          by_cases hpjsc : parentI j = sc
          · rw [hpjsc, getD_set_self (by omega) _ default,
              getD_set_ne (Ne.symm hjsc) _ default]
            exact minChild_le k v sc hpjsc hjsc hjc
          · rw [getD_set_ne (fun hh => hpjsc hh.symm) _ default,
              getD_set_ne (Ne.symm hjsc) _ default]
            exact h1 j hj hjlen hjsc hpjsc
        · intro hc0 j hjlen hpj hjne
          rw [List.length_set] at hjlen
          have hjgt : c < j := by
            rcases parentI_child hpj hjne with h' | h' <;> omega
          rw [hpc, getD_set_self (by omega) _ default,
            getD_set_ne (by omega : sc ≠ j) _ default]
          have hres := h1 j (by omega) hjlen (by omega) (by rw [hpj]; omega)
          rw [hpj] at hres
          exact hres
    · rename_i hloop
      split
      · rename_i heven
        obtain ⟨hev, hsc2⟩ := heven
        have hlast : 2 * (sc + 1) - 1 = len - 1 := by omega
        have hlen2 : 2 ≤ len := by omega
        have hplast : parentI (len - 1) = sc := by unfold parentI; omega
        refine ⟨⟨?_, ?_, ?_⟩, ?_, ?_⟩
        · rw [List.length_set]; omega
        · intro j hj hjlen hjc hpjc
          rw [List.length_set] at hjlen
          rw [hlast] at hjc hpjc ⊢
          by_cases hjsc : j = sc
          · subst hjsc
            have hpj_ne : parentI j ≠ j := by have := parentI_lt hj; omega
            rw [getD_set_self (by omega) _ default,
              getD_set_ne (fun hh => hpj_ne hh.symm) _ default]
            exact h2 hj (len - 1) (by omega) hplast (by omega)
          by_cases hpjsc : parentI j = sc
          · exfalso
            rcases parentI_child hpjsc hjsc with h' | h' <;> omega
          · rw [getD_set_ne (fun hh => hpjsc hh.symm) _ default,
              getD_set_ne (Ne.symm hjsc) _ default]
            exact h1 j hj hjlen hjsc hpjsc
        · intro hc0 j hjlen hpj hjne
          rw [List.length_set] at hjlen
          rw [hlast] at hpj hjne
          exfalso
          rcases parentI_child hpj hjne with h' | h' <;> omega
        · intro j hjlen hpj
          rw [hlast] at hpj ⊢
          by_contra hne
          rcases parentI_child hpj hne with h' | h' <;> omega
        · rw [List.length_set]; exact hvlen
      · rename_i hodd
        refine ⟨⟨hvlen ▸ hsc, h1, h2⟩, ?_, hvlen⟩
        intro j hjlen hpj
        by_contra hne
        rcases parentI_child hpj hne with h' | h' <;> omega

theorem pop_wf (k : α → Nat) (v : List α) (hw : wfb k v = true) :
    wfb k (pop k v) = true := by
  unfold pop
  split
  · simp [wfb]
  · rename_i hlen
    have hn : 2 ≤ v.length := by omega
    set n := v.length with hndef
    have hwlen : (v.take (n - 1)).length = n - 1 := by
      rw [List.length_take]; omega
    have hwwf : ∀ j, 0 < j → j < n - 1 →
        k ((v.take (n - 1)).getD (parentI j) default) ≤
          k ((v.take (n - 1)).getD j default) := by
      intro j hj hjlen
      have hpj := parentI_lt hj
      rw [getD_take (by omega) default, getD_take (by omega) default]
      exact wfb_iff.mp hw j hj (by omega)
    have hdesc := adjustDesc_wf_aux k (n - 1) (n - 1) (v.take (n - 1)) 0
      (by omega) hwlen ⟨by omega, fun j hj hjlen _ _ => hwwf j hj (by omega), by omega⟩
    obtain ⟨⟨hd0, hd1, _⟩, hchildless, hdlen⟩ := hdesc
    apply siftUp_wf
    refine ⟨hd0, hd1, ?_, ?_⟩
    · intro j hjlen hpj hjne
      exact absurd (hchildless j (by omega) hpj) hjne
    · intro _ j hjlen hpj hjne
      exact absurd (hchildless j (by omega) hpj) hjne

/-- In a well-formed heap the root key bounds every key (`top` is minimal). -/
theorem wfb_top_le (k : α → Nat) (v : List α) (hw : wfb k v = true) :
    ∀ j, j < v.length → k (v.getD 0 default) ≤ k (v.getD j default) := by
  intro j
  induction j using Nat.strong_induction_on with
  | _ j ih =>
    intro hjlen
    rcases Nat.eq_zero_or_pos j with h0 | hp
    · subst h0; exact Nat.le_refl _
    · have hstep := wfb_iff.mp hw j hp hjlen
      have hprev := ih (parentI j) (parentI_lt hp) (by have := parentI_lt hp; omega)
      exact Nat.le_trans hprev hstep

/- content preservation: push adds its argument, pop removes the root. -/

theorem ms_set (v : List α) (i : Nat) (hi : i < v.length) (b : α) :
    (v.getD i default) ::ₘ ((v.set i b : List α) : Multiset α) =
      b ::ₘ (v : Multiset α) := by
  induction v generalizing i with
  | nil => simp at hi
  | cons a tl ih =>
    cases i with
    | zero =>
      show a ::ₘ ((b :: tl : List α) : Multiset α) = b ::ₘ ((a :: tl : List α) : Multiset α)
      rw [← Multiset.cons_coe, ← Multiset.cons_coe, Multiset.cons_swap]
    | succ i =>
      have hi' : i < tl.length := by simp at hi; omega
      simp only [List.getD_cons_succ, List.set_cons_succ]
      rw [← Multiset.cons_coe a, ← Multiset.cons_coe a, Multiset.cons_swap,
        ih i hi', Multiset.cons_swap]

theorem siftUp_ms (k : α → Nat) (x : α) :
    ∀ h v, h < v.length →
      (v.getD h default) ::ₘ ((siftUp k v x h : List α) : Multiset α) =
        x ::ₘ (v : Multiset α) := by
  intro h
  induction h using Nat.strong_induction_on with
  | _ h ih =>
    intro v hlen
    match h with
    | 0 =>
      rw [siftUp]
      exact ms_set v 0 hlen x
    | h+1 =>
      rw [siftUp]
      split
      · rename_i hgt
        have hplt : h / 2 < h + 1 := by omega
        have hih := ih (h / 2) hplt (v.set (h+1) (v.getD (h / 2) default))
          (by rw [List.length_set]; omega)
        rw [getD_set_ne (by omega : h + 1 ≠ h / 2) _ default] at hih
        have hset := ms_set v (h+1) hlen (v.getD (h / 2) default)
        refine Multiset.cons_inj_right (v.getD (h / 2) default) |>.mp ?_
        calc (v.getD (h / 2) default) ::ₘ (v.getD (h+1) default) ::ₘ
              ((siftUp k (v.set (h+1) (v.getD (h / 2) default)) x (h / 2) : List α) : Multiset α)
            = (v.getD (h+1) default) ::ₘ (v.getD (h / 2) default) ::ₘ
              ((siftUp k (v.set (h+1) (v.getD (h / 2) default)) x (h / 2) : List α) : Multiset α) :=
              Multiset.cons_swap _ _ _
          _ = (v.getD (h+1) default) ::ₘ x ::ₘ
              ((v.set (h+1) (v.getD (h / 2) default) : List α) : Multiset α) := by
              rw [hih]
          _ = x ::ₘ (v.getD (h+1) default) ::ₘ
              ((v.set (h+1) (v.getD (h / 2) default) : List α) : Multiset α) :=
              Multiset.cons_swap _ _ _
          _ = x ::ₘ (v.getD (h / 2) default) ::ₘ (v : Multiset α) := by
              rw [hset]
          _ = (v.getD (h / 2) default) ::ₘ x ::ₘ (v : Multiset α) :=
              Multiset.cons_swap _ _ _
      · exact ms_set v (h+1) hlen x

theorem push_ms (k : α → Nat) (v : List α) (x : α) :
    ((push k v x : List α) : Multiset α) = x ::ₘ (v : Multiset α) := by
  unfold push
  have h := siftUp_ms k x v.length (v ++ [x]) (by simp)
  have hget : (v ++ [x]).getD v.length default = x := by
    rw [List.getD_eq_getElem?_getD, List.getElem?_append_right (Nat.le_refl _)]
    simp
  rw [hget] at h
  have hco : ((v ++ [x] : List α) : Multiset α) = x ::ₘ (v : Multiset α) := by
    rw [← Multiset.coe_add, add_comm, Multiset.coe_add]
    exact (Multiset.cons_coe x v).symm
  rw [hco] at h
  exact Multiset.cons_inj_right _ |>.mp h

theorem adjustDesc_ms_aux (k : α → Nat) (len : Nat) :
    ∀ m v sc, len - sc ≤ m → sc < v.length → v.length = len →
      (v.getD sc default) ::ₘ
          (((adjustDesc k len v sc sc).1 : List α) : Multiset α) =
        ((adjustDesc k len v sc sc).1.getD (adjustDesc k len v sc sc).2
            default) ::ₘ (v : Multiset α) := by
  intro m
  induction m with
  | zero =>
    intro v sc hm hhole hvlen
    unfold adjustDesc
    have hnot : ¬ sc < (len - 1) / 2 := by omega
    rw [if_neg hnot]
    split
    · rename_i heven
      have hlast : 2 * (sc + 1) - 1 < v.length := by omega
      rw [getD_set_ne (by omega : sc ≠ 2 * (sc + 1) - 1) _ default]
      exact ms_set v sc hhole _
    · rfl
  | succ m ih =>
    intro v sc hm hhole hvlen
    unfold adjustDesc
    split
    · rename_i hloop
      have hcb := minChild_bounds k v sc
      have hclen : minChild k v sc < len := by omega
      have hih := ih (v.set sc (v.getD (minChild k v sc) default))
        (minChild k v sc) (by omega) (by rw [List.length_set]; omega)
        (by rw [List.length_set]; exact hvlen)
      rw [getD_set_ne (by omega : sc ≠ minChild k v sc) _ default] at hih
      have hset := ms_set v sc hhole (v.getD (minChild k v sc) default)
      refine Multiset.cons_inj_right (v.getD (minChild k v sc) default) |>.mp ?_
      calc (v.getD (minChild k v sc) default) ::ₘ (v.getD sc default) ::ₘ
            (((adjustDesc k len (v.set sc (v.getD (minChild k v sc) default))
              (minChild k v sc) (minChild k v sc)).1 : List α) : Multiset α)
          = (v.getD sc default) ::ₘ (v.getD (minChild k v sc) default) ::ₘ
            (((adjustDesc k len (v.set sc (v.getD (minChild k v sc) default))
              (minChild k v sc) (minChild k v sc)).1 : List α) : Multiset α) :=
            Multiset.cons_swap _ _ _
        _ = (v.getD sc default) ::ₘ
            ((adjustDesc k len (v.set sc (v.getD (minChild k v sc) default))
              (minChild k v sc) (minChild k v sc)).1.getD
              (adjustDesc k len (v.set sc (v.getD (minChild k v sc) default))
                (minChild k v sc) (minChild k v sc)).2 default) ::ₘ
            ((v.set sc (v.getD (minChild k v sc) default) : List α) : Multiset α) := by
            rw [hih]
        _ = ((adjustDesc k len (v.set sc (v.getD (minChild k v sc) default))
              (minChild k v sc) (minChild k v sc)).1.getD
              (adjustDesc k len (v.set sc (v.getD (minChild k v sc) default))
                (minChild k v sc) (minChild k v sc)).2 default) ::ₘ
            (v.getD sc default) ::ₘ
            ((v.set sc (v.getD (minChild k v sc) default) : List α) : Multiset α) :=
            Multiset.cons_swap _ _ _
        _ = ((adjustDesc k len (v.set sc (v.getD (minChild k v sc) default))
              (minChild k v sc) (minChild k v sc)).1.getD
              (adjustDesc k len (v.set sc (v.getD (minChild k v sc) default))
                (minChild k v sc) (minChild k v sc)).2 default) ::ₘ
            (v.getD (minChild k v sc) default) ::ₘ (v : Multiset α) := by
            rw [hset]
        _ = (v.getD (minChild k v sc) default) ::ₘ
            ((adjustDesc k len (v.set sc (v.getD (minChild k v sc) default))
              (minChild k v sc) (minChild k v sc)).1.getD
              (adjustDesc k len (v.set sc (v.getD (minChild k v sc) default))
                (minChild k v sc) (minChild k v sc)).2 default) ::ₘ
            (v : Multiset α) :=
            Multiset.cons_swap _ _ _
    · split
      · rename_i heven
        obtain ⟨hev, hsc2⟩ := heven
        have hlast : 2 * (sc + 1) - 1 < v.length := by omega
        rw [getD_set_ne (by omega : sc ≠ 2 * (sc + 1) - 1) _ default]
        exact ms_set v sc hhole _
      · rfl

theorem adjustDesc_ms (k : α → Nat) (len : Nat) (v : List α) (sc : Nat)
    (hhole : sc < v.length) (hvlen : v.length = len) :
    (v.getD sc default) ::ₘ
        (((adjustDesc k len v sc sc).1 : List α) : Multiset α) =
      ((adjustDesc k len v sc sc).1.getD (adjustDesc k len v sc sc).2
          default) ::ₘ (v : Multiset α) :=
  adjustDesc_ms_aux k len (len - sc) v sc (Nat.le_refl _) hhole hvlen

theorem adjustDesc_hole_lt (k : α → Nat) (len : Nat) :
    ∀ m v sc, len - sc ≤ m → sc < len → (adjustDesc k len v sc sc).2 < len := by
  intro m
  induction m with
  | zero =>
    intro v sc hm hsc
    unfold adjustDesc
    have hnot : ¬ sc < (len - 1) / 2 := by omega
    rw [if_neg hnot]
    split
    · rename_i heven
      obtain ⟨h1, h2⟩ := heven
      show 2 * (sc + 1) - 1 < len
      omega
    · exact hsc
  | succ m ih =>
    intro v sc hm hsc
    unfold adjustDesc
    split
    · rename_i hloop
      have hcb := minChild_bounds k v sc
      exact ih _ _ (by omega) (by omega)
    · split
      · rename_i heven
        obtain ⟨h1, h2⟩ := heven
        show 2 * (sc + 1) - 1 < len
        omega
      · exact hsc

theorem pop_ms (k : α → Nat) (v : List α) (hne : v ≠ []) :
    (v : Multiset α) = (v.getD 0 default) ::ₘ ((pop k v : List α) : Multiset α) := by
  unfold pop
  split
  · rename_i hlen1
    match v, hne with
    | [a], _ => simp
    | a :: b :: tl, _ => simp at hlen1
  · rename_i hlen1
    have hn : 2 ≤ v.length := by
      cases v with
      | nil => exact absurd rfl hne
      | cons a tl =>
        simp only [List.length_cons, Nat.not_le] at hlen1 ⊢
        omega
    set w := v.take (v.length - 1) with hwdef
    set value := v.getD (v.length - 1) default with hvaldef
    set r := adjustDesc k (v.length - 1) w 0 0 with hrdef
    have hwlen : w.length = v.length - 1 := by
      rw [hwdef, List.length_take]; omega
    have hv0 : w.getD 0 default = v.getD 0 default :=
      getD_take (by omega) default
    have hadj := adjustDesc_ms k (v.length - 1) w 0 (by omega) hwlen
    rw [← hrdef] at hadj
    have hhole : r.2 < v.length - 1 :=
      adjustDesc_hole_lt k (v.length - 1) (v.length - 1) w 0 (by omega) (by omega)
    have hr1len : r.1.length = v.length - 1 := by
      rw [hrdef, adjustDesc_length, hwlen]
    have hsift := siftUp_ms k value r.2 r.1 (by rw [hr1len]; exact hhole)
    have hvsplit : (v : Multiset α) = value ::ₘ ((w : List α) : Multiset α) := by
      conv_lhs => rw [← List.dropLast_concat_getLast hne]
      rw [← Multiset.coe_add, add_comm, Multiset.coe_add,
        List.singleton_append, ← Multiset.cons_coe]
      congr 1
      · rw [List.getLast_eq_getElem, hvaldef,
          List.getD_eq_getElem v default (by omega : v.length - 1 < v.length)]
      · rw [List.dropLast_eq_take, hwdef]
    have hkey : (w.getD 0 default) ::ₘ
        ((siftUp k r.1 value r.2 : List α) : Multiset α) =
        value ::ₘ ((w : List α) : Multiset α) := by
      refine Multiset.cons_inj_right (r.1.getD r.2 default) |>.mp ?_
      calc (r.1.getD r.2 default) ::ₘ (w.getD 0 default) ::ₘ
            ((siftUp k r.1 value r.2 : List α) : Multiset α)
          = (w.getD 0 default) ::ₘ (r.1.getD r.2 default) ::ₘ
            ((siftUp k r.1 value r.2 : List α) : Multiset α) :=
            Multiset.cons_swap _ _ _
        _ = (w.getD 0 default) ::ₘ value ::ₘ ((r.1 : List α) : Multiset α) := by
            rw [hsift]
        _ = value ::ₘ (w.getD 0 default) ::ₘ ((r.1 : List α) : Multiset α) :=
            Multiset.cons_swap _ _ _
        _ = value ::ₘ (r.1.getD r.2 default) ::ₘ ((w : List α) : Multiset α) := by
            rw [hadj]
        _ = (r.1.getD r.2 default) ::ₘ value ::ₘ ((w : List α) : Multiset α) :=
            Multiset.cons_swap _ _ _
    rw [hvsplit, ← hv0, ← hkey]

end CppHeap

/- ---------------------------------------------------------------------
   Part 2: NetworkSimulator (src/network/network_simulator.cpp,
   include/simulator/network_simulator.hpp)
   --------------------------------------------------------------------- -/

inductive DistributionType where
  | UNIFORM
  | NORMAL
  | EXPONENTIAL
deriving DecidableEq

structure LatencyConfig where
  min_ms : Nat := 0
  max_ms : Nat := 100
  distribution : DistributionType := DistributionType.UNIFORM
deriving DecidableEq

/-- `LatencyConfig::isValid`. -/
def LatencyConfig.isValid (c : LatencyConfig) : Bool := c.min_ms ≤ c.max_ms

/-- `DelayedMessage` of `network_simulator.hpp`.  The C++ fields `from` and
`to` are Lean keywords and are embedded as `from_` and `to_`. -/
structure DelayedMessage where
  from_ : Nat
  to_ : Nat
  message : String
  deliveryTime : Nat
deriving DecidableEq, Inhabited

/-- `DelayedMessage::operator>` — it compares `deliveryTime` only; the struct
carries no insertion sequence number. -/
def DelayedMessage.gtOp (a b : DelayedMessage) : Bool :=
  a.deliveryTime > b.deliveryTime

/-- Private `NetworkSimulator::ConnectionStats`; `min_latency_ms` is
default-initialised to `UINT32_MAX`. -/
structure ConnectionStats where
  total_latency_ms : Nat := 0
  min_latency_ms : Nat := 4294967295
  max_latency_ms : Nat := 0
  message_count : Nat := 0
deriving DecidableEq, Inhabited

/-- Public `NetworkSimulator::LatencyStats` as returned by `getStats`.
`drop_rate` (a C++ float) is modelled as a rational. -/
structure LatencyStats where
  min_latency_ms : Nat := 0
  max_latency_ms : Nat := 0
  avg_latency_ms : Nat := 0
  message_count : Nat := 0
  dropped_count : Nat := 0
  delivered_count : Nat := 0
  drop_rate : Rat := 0
deriving DecidableEq

/-- Lookup in a `std::map` keyed by a node-id pair (iteration order of these
maps is never observed by the embedded operations). -/
def mapFind {β : Type} (m : List ((Nat × Nat) × β)) (key : Nat × Nat) :
    Option β :=
  match m with
  | [] => none
  | (k0, v) :: rest => if k0 = key then some v else mapFind rest key

/-- Insert-or-assign in a `std::map` keyed by a node-id pair. -/
def mapSet {β : Type} (m : List ((Nat × Nat) × β)) (key : Nat × Nat) (v : β) :
    List ((Nat × Nat) × β) :=
  match m with
  | [] => [(key, v)]
  | (k0, v0) :: rest =>
    if k0 = key then (key, v) :: rest else (k0, v0) :: mapSet rest key v

/-- State of `NetworkSimulator`.  The `std::mt19937 rng_` member is modelled
as an abstract stream of draws `rng : Nat → Nat` with a cursor `rng_pos`; the
stream is a parameter of the simulator instance, fixed by its seed. -/
structure NetworkSimulator where
  default_latency : LatencyConfig :=
    { min_ms := 10, max_ms := 50, distribution := DistributionType.NORMAL }
  latency_map : List ((Nat × Nat) × LatencyConfig) := []
  message_queue : List DelayedMessage := []
  stats_map : List ((Nat × Nat) × ConnectionStats) := []
  rng : Nat → Nat := fun _ => 0
  rng_pos : Nat := 0

namespace NetworkSimulator

/-- Both constructors set the default latency to `{10, 50, NORMAL}`. -/
def init (rng : Nat → Nat) : NetworkSimulator := { rng := rng }

/-- `NetworkSimulator::setDefaultLatency`; throws `std::invalid_argument` on
an invalid config, leaving the simulator unchanged. -/
def setDefaultLatency (config : LatencyConfig) (sim : NetworkSimulator) :
    Except String NetworkSimulator :=
  if config.isValid then .ok { sim with default_latency := config }
  else .error "Invalid latency configuration: min > max"

/-- `NetworkSimulator::setLatency`. -/
def setLatency (fromNode toNode : Nat) (config : LatencyConfig)
    (sim : NetworkSimulator) : Except String NetworkSimulator :=
  if config.isValid then
    .ok { sim with
      latency_map := mapSet sim.latency_map (fromNode, toNode) config }
  else .error "Invalid latency configuration: min > max"

/-- `NetworkSimulator::getLatency`. -/
def getLatency (fromNode toNode : Nat) (sim : NetworkSimulator) :
    LatencyConfig :=
  match mapFind sim.latency_map (fromNode, toNode) with
  | some c => c
  | none => sim.default_latency

/-- `NetworkSimulator::uniformDistribution`.  When `min = max` the source
returns `min` without drawing from the generator; otherwise it draws one
abstract value from the stream (the mapping of raw draws to the sampled
integer inside `std::uniform_int_distribution` is implementation-defined and
is modelled as an in-range draw; every theorem below evaluates only the
`min = max` branch, which is exact). -/
def uniformDistribution (n x : Nat) (sim : NetworkSimulator) : Nat × Nat :=
  if n = x then (n, sim.rng_pos)
  else (n + sim.rng sim.rng_pos % (x - n + 1), sim.rng_pos + 1)

/-- `NetworkSimulator::normalDistribution`: identical `min = max` early
return; the floating-point sampling and clamping of the general branch is
modelled as a clamped abstract draw. -/
def normalDistribution (n x : Nat) (sim : NetworkSimulator) : Nat × Nat :=
  if n = x then (n, sim.rng_pos)
  else (n + sim.rng sim.rng_pos % (x - n + 1), sim.rng_pos + 1)

/-- `NetworkSimulator::exponentialDistribution`: identical `min = max` early
return; the floating-point sampling and clamping of the general branch is
modelled as a clamped abstract draw. -/
def exponentialDistribution (n x : Nat) (sim : NetworkSimulator) : Nat × Nat :=
  if n = x then (n, sim.rng_pos)
  else (n + sim.rng sim.rng_pos % (x - n + 1), sim.rng_pos + 1)

/-- `NetworkSimulator::calculateLatency`. -/
def calculateLatency (config : LatencyConfig) (sim : NetworkSimulator) :
    Nat × Nat :=
  match config.distribution with
  | DistributionType.UNIFORM =>
    uniformDistribution config.min_ms config.max_ms sim
  | DistributionType.NORMAL =>
    normalDistribution config.min_ms config.max_ms sim
  | DistributionType.EXPONENTIAL =>
    exponentialDistribution config.min_ms config.max_ms sim

/-- `NetworkSimulator::recordStats`: `stats_map_[key]` default-constructs an
entry when absent, then adds the latency to the aggregates.  It touches only
`total_latency_ms`, `message_count`, `min_latency_ms` and `max_latency_ms`
(there are no drop counters in the implementation). -/
def recordStats (from_ to_ latency_ms : Nat) (sim : NetworkSimulator) :
    NetworkSimulator :=
  let stats := (mapFind sim.stats_map (from_, to_)).getD {}
  let stats2 : ConnectionStats :=
    { total_latency_ms := stats.total_latency_ms + latency_ms
      message_count := stats.message_count + 1
      min_latency_ms := min stats.min_latency_ms latency_ms
      max_latency_ms := max stats.max_latency_ms latency_ms }
  { sim with stats_map := mapSet sim.stats_map (from_, to_) stats2 }

/-- `NetworkSimulator::enqueueMessage`: look up the latency config, sample a
latency, record statistics and push the delayed message; there is no check of
any link state and no loss-model sampling before the push. -/
def enqueueMessage (from_ to_ : Nat) (message : String) (currentTime : Nat)
    (sim : NetworkSimulator) : NetworkSimulator :=
  let config := getLatency from_ to_ sim
  let s := calculateLatency config sim
  let sim1 : NetworkSimulator := { sim with rng_pos := s.2 }
  let sim2 := recordStats from_ to_ s.1 sim1
  let delayed : DelayedMessage :=
    { from_ := from_, to_ := to_, message := message,
      deliveryTime := currentTime + s.1 }
  { sim2 with message_queue :=
      CppHeap.push DelayedMessage.deliveryTime sim2.message_queue delayed }

/-- The pop loop of `NetworkSimulator::getReadyMessages`: extract messages in
heap order while the top's `deliveryTime ≤ currentTime`; returns the popped
messages in order together with the remaining queue. -/
def drainReady (currentTime : Nat) (q : List DelayedMessage) :
    List DelayedMessage × List DelayedMessage :=
  if hq : q = [] then ([], [])
  else
    if (q.getD 0 default).deliveryTime ≤ currentTime then
      let r := drainReady currentTime (CppHeap.pop DelayedMessage.deliveryTime q)
      ((q.getD 0 default) :: r.1, r.2)
    else ([], q)
  termination_by q.length
  decreasing_by
    rw [CppHeap.pop_length]
    have : q.length ≠ 0 := fun hz => hq (List.length_eq_zero.mp hz)
    omega

/-- `NetworkSimulator::getReadyMessages`. -/
def getReadyMessages (currentTime : Nat) (sim : NetworkSimulator) :
    List DelayedMessage × NetworkSimulator :=
  let r := drainReady currentTime sim.message_queue
  (r.1, { sim with message_queue := r.2 })

/-- `NetworkSimulator::getPendingMessageCount`. -/
def getPendingMessageCount (sim : NetworkSimulator) : Nat :=
  sim.message_queue.length

/-- `NetworkSimulator::clear`. -/
def clear (sim : NetworkSimulator) : NetworkSimulator :=
  { sim with message_queue := [] }

/-- `NetworkSimulator::getStats`: copies `min`/`max`/`count` and computes the
average for an existing entry; every other field of the returned struct —
including `dropped_count` and `delivered_count` — keeps its default value. -/
def getStats (fromNode toNode : Nat) (sim : NetworkSimulator) : LatencyStats :=
  match mapFind sim.stats_map (fromNode, toNode) with
  | none => {}
  | some cs =>
    { min_latency_ms := cs.min_latency_ms
      max_latency_ms := cs.max_latency_ms
      message_count := cs.message_count
      avg_latency_ms :=
        if cs.message_count > 0 then cs.total_latency_ms / cs.message_count
        else 0 }

/-- `NetworkSimulator::resetStats`. -/
def resetStats (sim : NetworkSimulator) : NetworkSimulator :=
  { sim with stats_map := [] }

end NetworkSimulator

/- ---------------------------------------------------------------------
   Part 3: EventScheduler (src/scenario/event_scheduler.cpp,
   include/simulator/event_scheduler.hpp)
   --------------------------------------------------------------------- -/

/-- An event as held by the scheduler: the `scheduledTime_` member of
`Event` (`event.hpp`), an identifier `eid` for the event instance, and the
observable control-flow behavior of its virtual `execute` — whether it
returns normally or throws (`fails`). -/
structure SEvent where
  scheduledTime : Nat := 0
  eid : Nat
  fails : Bool := false
deriving DecidableEq, Inhabited

namespace EventScheduler

/-- `EventScheduler::EventComparator::operator()` — it compares
`getScheduledTime()` only; there is no insertion sequence number. -/
def eventComparator (a b : SEvent) : Bool :=
  a.scheduledTime > b.scheduledTime

/-- `EventScheduler::scheduleEvent` on a non-null event:
`setScheduledTime(time)` followed by the priority-queue push. -/
def scheduleEvent (ev : SEvent) (time : Nat) (q : List SEvent) : List SEvent :=
  CppHeap.push SEvent.scheduledTime q { ev with scheduledTime := time }

/-- Observable outcome of `processEvents`: the returned `executedCount`, the
events whose `execute` was invoked in invocation order, and the remaining
queue. -/
structure ProcResult where
  count : Nat
  attempted : List SEvent
  remaining : List SEvent
deriving DecidableEq

/-- `EventScheduler::processEvents`: repeatedly peek the top event; stop when
its scheduled time is after `currentTime`; otherwise pop it, invoke
`execute` inside `try`/`catch` — an exception is caught and logged, the event
stays popped, and the loop continues — and count the successful
executions. -/
def processEvents (currentTime : Nat) (q : List SEvent) : ProcResult :=
  if hq : q = [] then { count := 0, attempted := [], remaining := [] }
  else
    if (q.getD 0 default).scheduledTime ≤ currentTime then
      let r := processEvents currentTime (CppHeap.pop SEvent.scheduledTime q)
      { count := (if (q.getD 0 default).fails then 0 else 1) + r.count
        attempted := (q.getD 0 default) :: r.attempted
        remaining := r.remaining }
    else { count := 0, attempted := [], remaining := q }
  termination_by q.length
  decreasing_by
    rw [CppHeap.pop_length]
    have hnz : q.length ≠ 0 := fun hz => hq (List.length_eq_zero.mp hz)
    omega

/-- `EventScheduler::hasPendingEvents`. -/
def hasPendingEvents (q : List SEvent) : Bool := !q.isEmpty

/-- `EventScheduler::getPendingEventCount`. -/
def getPendingEventCount (q : List SEvent) : Nat := q.length

/-- `EventScheduler::getNextEventTime` (`UINT32_MAX` when empty). -/
def getNextEventTime (q : List SEvent) : Nat :=
  match q with
  | [] => 4294967295
  | top :: _ => top.scheduledTime

/-- `EventScheduler::clear`. -/
def clear (_ : List SEvent) : List SEvent := []

end EventScheduler

/- drain specifications -/

namespace CppHeap

variable {α : Type} [Inhabited α]

theorem wfb_top_le_mem (k : α → Nat) (v : List α) (hw : wfb k v = true)
    {e : α} (he : e ∈ v) : k (v.getD 0 default) ≤ k e := by
  obtain ⟨i, hi, hei⟩ := List.getElem_of_mem he
  have hle := wfb_top_le k v hw i hi
  rw [List.getD_eq_getElem v default hi] at hle
  rw [← hei]
  exact hle

theorem mem_of_mem_pop (k : α → Nat) (v : List α) (hne : v ≠ []) {e : α}
    (he : e ∈ pop k v) : e ∈ v := by
  have hms := pop_ms k v hne
  have : e ∈ ((v.getD 0 default) ::ₘ ((pop k v : List α) : Multiset α)) :=
    Multiset.mem_cons_of_mem (by exact_mod_cast he)
  rw [← hms] at this
  exact_mod_cast this

end CppHeap

namespace EventScheduler

theorem processEvents_spec_aux (currentTime : Nat) :
    ∀ n q, q.length ≤ n →
      CppHeap.wfb SEvent.scheduledTime q = true →
      (((processEvents currentTime q).attempted : List SEvent) : Multiset SEvent) =
          Multiset.filter (fun e => e.scheduledTime ≤ currentTime)
            ((q : List SEvent) : Multiset SEvent) ∧
      (((processEvents currentTime q).remaining : List SEvent) : Multiset SEvent) =
          Multiset.filter (fun e => ¬ e.scheduledTime ≤ currentTime)
            ((q : List SEvent) : Multiset SEvent) ∧
      (processEvents currentTime q).count =
        ((processEvents currentTime q).attempted.filter
          (fun e => !e.fails)).length := by
  intro n
  induction n with
  | zero =>
    intro q hlen hwf
    have hq : q = [] := List.length_eq_zero.mp (by omega)
    subst hq
    rw [processEvents]
    simp
  | succ n ih =>
    intro q hlen hwf
    rw [processEvents]
    split
    · rename_i hq
      subst hq
      simp
    · rename_i hq
      have hnz : q.length ≠ 0 := fun hz => hq (List.length_eq_zero.mp hz)
      have hpoplen : (CppHeap.pop SEvent.scheduledTime q).length = q.length - 1 :=
        CppHeap.pop_length _ _
      have hms := CppHeap.pop_ms SEvent.scheduledTime q hq
      split
      · rename_i htop
        have hrec := ih (CppHeap.pop SEvent.scheduledTime q) (by omega)
          (CppHeap.pop_wf _ _ hwf)
        obtain ⟨ha, hr, hc⟩ := hrec
        have hfc : Multiset.filter (fun e => e.scheduledTime ≤ currentTime)
            ((q.getD 0 default) ::ₘ
              ((CppHeap.pop SEvent.scheduledTime q : List SEvent) :
                Multiset SEvent)) =
            (q.getD 0 default) ::ₘ
              Multiset.filter (fun e => e.scheduledTime ≤ currentTime)
                ((CppHeap.pop SEvent.scheduledTime q : List SEvent) :
                  Multiset SEvent) :=
          Multiset.filter_cons_of_pos _ htop
        have hfc2 : Multiset.filter (fun e => ¬ e.scheduledTime ≤ currentTime)
            ((q.getD 0 default) ::ₘ
              ((CppHeap.pop SEvent.scheduledTime q : List SEvent) :
                Multiset SEvent)) =
            Multiset.filter (fun e => ¬ e.scheduledTime ≤ currentTime)
              ((CppHeap.pop SEvent.scheduledTime q : List SEvent) :
                Multiset SEvent) :=
          Multiset.filter_cons_of_neg _ (not_not_intro htop)
        refine ⟨?_, ?_, ?_⟩
        · rw [← Multiset.cons_coe, ha, hms, hfc]
        · rw [hr, hms, hfc2]
        · show (if (q.getD 0 default).fails then 0 else 1) +
              (processEvents currentTime
                (CppHeap.pop SEvent.scheduledTime q)).count = _
          by_cases hfail : (q.getD 0 default).fails
          · rw [List.filter_cons, hfail, hc]
            simp
          · have hfail2 : (q.getD 0 default).fails = false := by
              cases hx : (q.getD 0 default).fails
              · rfl
              · exact absurd hx hfail
            rw [List.filter_cons, hc, hfail2]
            simp
            omega
      · rename_i htop
        have hall : ∀ e ∈ q, ¬ e.scheduledTime ≤ currentTime := by
          intro e he
          have := CppHeap.wfb_top_le_mem SEvent.scheduledTime q hwf he
          omega
        refine ⟨?_, ?_, by simp⟩
        · rw [Multiset.coe_nil, eq_comm, Multiset.filter_eq_nil]
          intro a ha
          exact hall a (by exact_mod_cast ha)
        · rw [eq_comm, Multiset.filter_eq_self]
          intro a ha
          exact hall a (by exact_mod_cast ha)

end EventScheduler

namespace NetworkSimulator

theorem drainReady_spec_aux (currentTime : Nat) :
    ∀ n q, q.length ≤ n →
      CppHeap.wfb DelayedMessage.deliveryTime q = true →
      (((drainReady currentTime q).1 : List DelayedMessage) :
          Multiset DelayedMessage) =
        Multiset.filter (fun m => m.deliveryTime ≤ currentTime)
          ((q : List DelayedMessage) : Multiset DelayedMessage) ∧
      (((drainReady currentTime q).2 : List DelayedMessage) :
          Multiset DelayedMessage) =
        Multiset.filter (fun m => ¬ m.deliveryTime ≤ currentTime)
          ((q : List DelayedMessage) : Multiset DelayedMessage) ∧
      List.Pairwise (fun a b => a.deliveryTime ≤ b.deliveryTime)
        (drainReady currentTime q).1 := by
  intro n
  induction n with
  | zero =>
    intro q hlen hwf
    have hq : q = [] := List.length_eq_zero.mp (by omega)
    subst hq
    rw [drainReady]
    simp
  | succ n ih =>
    intro q hlen hwf
    rw [drainReady]
    split
    · rename_i hq
      subst hq
      simp
    · rename_i hq
      have hnz : q.length ≠ 0 := fun hz => hq (List.length_eq_zero.mp hz)
      have hpoplen :
          (CppHeap.pop DelayedMessage.deliveryTime q).length = q.length - 1 :=
        CppHeap.pop_length _ _
      have hms := CppHeap.pop_ms DelayedMessage.deliveryTime q hq
      split
      · rename_i htop
        have hrec := ih (CppHeap.pop DelayedMessage.deliveryTime q) (by omega)
          (CppHeap.pop_wf _ _ hwf)
        obtain ⟨ha, hr, hp⟩ := hrec
        have hfc : Multiset.filter (fun m => m.deliveryTime ≤ currentTime)
            ((q.getD 0 default) ::ₘ
              ((CppHeap.pop DelayedMessage.deliveryTime q :
                List DelayedMessage) : Multiset DelayedMessage)) =
            (q.getD 0 default) ::ₘ
              Multiset.filter (fun m => m.deliveryTime ≤ currentTime)
                ((CppHeap.pop DelayedMessage.deliveryTime q :
                  List DelayedMessage) : Multiset DelayedMessage) :=
          Multiset.filter_cons_of_pos _ htop
        have hfc2 : Multiset.filter (fun m => ¬ m.deliveryTime ≤ currentTime)
            ((q.getD 0 default) ::ₘ
              ((CppHeap.pop DelayedMessage.deliveryTime q :
                List DelayedMessage) : Multiset DelayedMessage)) =
            Multiset.filter (fun m => ¬ m.deliveryTime ≤ currentTime)
              ((CppHeap.pop DelayedMessage.deliveryTime q :
                List DelayedMessage) : Multiset DelayedMessage) :=
          Multiset.filter_cons_of_neg _ (not_not_intro htop)
        refine ⟨?_, ?_, ?_⟩
        · rw [← Multiset.cons_coe, ha, hms, hfc]
        · rw [hr, hms, hfc2]
        · show List.Pairwise _ ((q.getD 0 default) ::
            (drainReady currentTime
              (CppHeap.pop DelayedMessage.deliveryTime q)).1)
          rw [List.pairwise_cons]
          refine ⟨?_, hp⟩
          intro b hb
          have hbq : b ∈ CppHeap.pop DelayedMessage.deliveryTime q := by
            have : b ∈ (((drainReady currentTime
                (CppHeap.pop DelayedMessage.deliveryTime q)).1 :
                  List DelayedMessage) : Multiset DelayedMessage) := by
              exact_mod_cast hb
            rw [ha] at this
            have := Multiset.mem_of_mem_filter this
            exact_mod_cast this
          exact CppHeap.wfb_top_le_mem DelayedMessage.deliveryTime q hwf
            (CppHeap.mem_of_mem_pop DelayedMessage.deliveryTime q hq hbq)
      · rename_i htop
        have hall : ∀ m ∈ q, ¬ m.deliveryTime ≤ currentTime := by
          intro m hm
          have := CppHeap.wfb_top_le_mem DelayedMessage.deliveryTime q hwf hm
          omega
        refine ⟨?_, ?_, by simp⟩
        · rw [Multiset.coe_nil, eq_comm, Multiset.filter_eq_nil]
          intro a ha
          exact hall a (by exact_mod_cast ha)
        · rw [eq_comm, Multiset.filter_eq_self]
          intro a ha
          exact hall a (by exact_mod_cast ha)

end NetworkSimulator

/- ---------------------------------------------------------------------
   Part 4: NodeManager (src/core/node_manager.cpp,
   include/simulator/node_manager.hpp)
   --------------------------------------------------------------------- -/

/-- `NodeConfig` of `virtual_node.hpp`.  The C++ field `meshPrefix` is
renamed `meshPfx` here (identifier constraint); semantics unchanged. -/
structure NodeConfig where
  nodeId : Nat
  meshPfx : String := ""
  meshPassword : String := ""
  meshPort : Nat := 5555
deriving DecidableEq, Inhabited

/-- The typed errors thrown by `NodeManager::createNode`:
`std::invalid_argument` for a zero id, `std::runtime_error` for a duplicate
id and for the `MAX_NODES` limit. -/
inductive CreateNodeError where
  | invalidArgument
  | duplicateId
  | maxNodesReached
deriving DecidableEq

namespace NodeManager

/-- `NodeManager::MAX_NODES` (node_manager.hpp line 200). -/
def MAX_NODES : Nat := 1000

/-- Ordered insert-or-assign of `std::map<uint32_t, ...>::operator[]`. -/
def mapInsert : List (Nat × NodeConfig) → Nat → NodeConfig →
    List (Nat × NodeConfig)
  | [], key, v => [(key, v)]
  | (k0, v0) :: rest, key, v =>
    if key < k0 then (key, v) :: (k0, v0) :: rest
    else if key = k0 then (key, v) :: rest
    else (k0, v0) :: mapInsert rest key v

/-- `std::map::find`-style lookup. -/
def mapLookup : List (Nat × NodeConfig) → Nat → Option NodeConfig
  | [], _ => none
  | (k0, v0) :: rest, key => if k0 = key then some v0 else mapLookup rest key

/-- `nodes_.count(id) > 0`. -/
def mapContains (m : List (Nat × NodeConfig)) (key : Nat) : Bool :=
  (mapLookup m key).isSome

/-- `NodeManager::createNode`, as a state transformer on `nodes_`: the checks
run before the single mutation (`nodes_[config.nodeId] = node`), so a throw
leaves the map untouched.  The `VirtualNode` constructor runs after the
checks; its own id validation cannot fire (the id is non-zero here) and the
mesh/scheduler machinery is an external collaborator modelled as
succeeding. -/
def createNode (config : NodeConfig) (nodes : List (Nat × NodeConfig)) :
    List (Nat × NodeConfig) × Option CreateNodeError :=
  if config.nodeId = 0 then (nodes, some CreateNodeError.invalidArgument)
  else if mapContains nodes config.nodeId then
    (nodes, some CreateNodeError.duplicateId)
  else if MAX_NODES ≤ nodes.length then
    (nodes, some CreateNodeError.maxNodesReached)
  else (mapInsert nodes config.nodeId config, none)

/-- `NodeManager::establishConnectivity`.  `node_list` is the value sequence
of `nodes_` (ascending node id, `std::map` iteration order).  The random
source is `std::rand()`, the C runtime global generator: the repository
never calls `srand`, and the simulator seed is not involved; the ambient
generator is modelled as a stream `rand` with a cursor `randPos`.  Returns
the `connectTo` calls made, in order, as (connecting node, target node). -/
def establishConnectivity (rand : Nat → Nat) (randPos : Nat)
    (node_list : List Nat) : List (Nat × Nat) :=
  ((List.range node_list.length).drop 1).map fun i =>
    (node_list.getD i 0, node_list.getD (rand (randPos + (i - 1)) % i) 0)

end NodeManager

/- ---------------------------------------------------------------------
   Part 5: VirtualNode lifecycle (src/core/virtual_node.cpp)
   --------------------------------------------------------------------- -/

/-- Lifecycle-relevant state of a `VirtualNode`: the `running_` flag, the
metrics fields touched by start/stop/crash, and the firmware slot
(`firmware_` holds the name of the loaded firmware instance, `none` for an
empty slot) with its `firmware_initialized_` flag.  `setup_log` records, in
order, the firmware names whose `setup()` was invoked (observable effect of
`setupFirmware`). `start_time` is the `steady_clock` timestamp; callers pass
the current time to each operation. -/
structure VNState where
  running : Bool := false
  start_time : Nat := 0
  total_uptime_ms : Nat := 0
  crash_count : Nat := 0
  firmware : Option String := none
  firmware_initialized : Bool := false
  setup_log : List String := []
deriving DecidableEq, Inhabited

namespace VirtualNode

/-- `VirtualNode::setupFirmware`: returns early unless a firmware is loaded
and not yet initialized; otherwise calls `initialize` and `setup()` and sets
the flag. -/
def setupFirmware (s : VNState) : VNState :=
  match s.firmware with
  | none => s
  | some fw =>
    if s.firmware_initialized then s
    else { s with firmware_initialized := true, setup_log := s.setup_log ++ [fw] }

/-- `VirtualNode::start`: throws `std::runtime_error` when already running
(the returned flag records the throw; the state is unchanged in that case);
otherwise records the start time, routes callbacks, runs `setupFirmware` and
sets `running_`. -/
def start (now : Nat) (s : VNState) : VNState × Bool :=
  if s.running then (s, true)
  else
    let s1 := setupFirmware { s with start_time := now }
    ({ s1 with running := true }, false)

/-- `VirtualNode::stop`: no-op when not running; otherwise adds the elapsed
uptime and clears `running_`. -/
def stop (now : Nat) (s : VNState) : VNState :=
  if s.running then
    { s with
        total_uptime_ms := s.total_uptime_ms + (now - s.start_time),
        running := false }
  else s

/-- `VirtualNode::crash`: silent no-op when not running; otherwise adds the
elapsed uptime exactly as `stop` does, increments `crash_count`, and clears
`running_`. -/
def crash (now : Nat) (s : VNState) : VNState :=
  if s.running then
    { s with
        total_uptime_ms := s.total_uptime_ms + (now - s.start_time),
        crash_count := s.crash_count + 1,
        running := false }
  else s

/-- `VirtualNode::restart`: `stop()` followed by `start()` (after the stop
the node is never running, so this `start` cannot throw). -/
def restart (now : Nat) (s : VNState) : VNState :=
  (start now (stop now s)).1

/-- `VirtualNode::loadFirmware(std::unique_ptr<FirmwareBase>)`: replaces the
slot; it does not touch `firmware_initialized_`. -/
def loadFirmwareInst (fw : Option String) (s : VNState) : VNState :=
  { s with firmware := fw }

/-- `VirtualNode::loadFirmware(const std::string&)`: an empty name is a
no-op returning true; otherwise the factory result is assigned to the slot —
on an unregistered name the slot becomes null and false is returned.
`registered` models the firmware registry content.  It does not touch
`firmware_initialized_`. -/
def loadFirmware (registered : String → Bool) (name : String) (s : VNState) :
    VNState × Bool :=
  if name = "" then (s, true)
  else if registered name then ({ s with firmware := some name }, true)
  else ({ s with firmware := none }, false)

/-- One lifecycle operation together with the time at which it is issued. -/
inductive VNOp where
  | startOp (now : Nat)
  | stopOp (now : Nat)
  | crashOp (now : Nat)
  | restartOp (now : Nat)
  | loadOp (fw : Option String)
deriving DecidableEq

/-- Apply one operation (the thrown-exception flag of `start` is dropped:
a throwing `start` leaves the state unchanged). -/
def applyOp (s : VNState) (op : VNOp) : VNState :=
  match op with
  | VNOp.startOp now => (start now s).1
  | VNOp.stopOp now => stop now s
  | VNOp.crashOp now => crash now s
  | VNOp.restartOp now => restart now s
  | VNOp.loadOp fw => loadFirmwareInst fw s

def runOps (s : VNState) (ops : List VNOp) : VNState :=
  ops.foldl applyOp s

/-- 1 when `op` is a `crash()` issued while the node is running, else 0. -/
def crashDelta (s : VNState) : VNOp → Nat
  | VNOp.crashOp _ => if s.running then 1 else 0
  | _ => 0

/-- The number of `crash()` calls in `ops` that are issued while the node is
running (re-simulating only the `running_` flag). -/
def crashesWhileRunning (s : VNState) : List VNOp → Nat
  | [] => 0
  | op :: rest => crashDelta s op + crashesWhileRunning (applyOp s op) rest

end VirtualNode

/- ---------------------------------------------------------------------
   Part 6: partition / heal events
   (src/scenario/events/network_partition_event.cpp,
    src/scenario/events/network_heal_event.cpp)
   --------------------------------------------------------------------- -/

/-- State touched by the partition and heal events: the manager node set,
each node partition tag, and the dropped directed links of the network
simulator.

Modelled from the spec: `VirtualNode::setPartitionId` / `getPartitionId` and
`NetworkSimulator::dropConnection` / `restoreAllConnections` are invoked by
the event sources but have no definition under the repository sources; the
spec (§4.1 `drop_link` / `restore_all_links`, §4.2 partition tag, §3
DirectedLink) defines them as storing a u32 tag per node and a per-directed-
link dropped flag. -/
structure PartitionSim where
  node_ids : List Nat
  partition_ids : Nat → Nat := fun _ => 0
  dropped_links : List (Nat × Nat) := []

namespace PartitionSim

/-- Modelled from the spec: `NetworkSimulator::dropConnection` marks the
directed link dropped (idempotent). -/
def dropConnection (a b : Nat) (st : PartitionSim) : PartitionSim :=
  if (a, b) ∈ st.dropped_links then st
  else { st with dropped_links := (a, b) :: st.dropped_links }

/-- Modelled from the spec: `NetworkSimulator::restoreAllConnections` clears
every dropped flag. -/
def restoreAllConnections (st : PartitionSim) : PartitionSim :=
  { st with dropped_links := [] }

/-- Modelled from the spec: `VirtualNode::setPartitionId`. -/
def setPartitionId (nodeId pid : Nat) (st : PartitionSim) : PartitionSim :=
  { st with partition_ids := fun j =>
      if j = nodeId then pid else st.partition_ids j }

end PartitionSim

/-- `NetworkPartitionEvent` constructor validation: fewer than 2 groups or
any empty group raises `std::invalid_argument`. -/
def mkNetworkPartitionEvent (groups : List (List Nat)) :
    Except String (List (List Nat)) :=
  if groups.length < 2 then
    Except.error "NetworkPartitionEvent requires at least 2 partition groups"
  else if groups.any (fun g => g.isEmpty) then
    Except.error "NetworkPartitionEvent: partition group is empty"
  else Except.ok groups

namespace PartitionSim

/-- `NetworkPartitionEvent::dropConnectionsBetweenGroups`: for each pair of
nodes across the two groups drop both directions. -/
def dropConnectionsBetweenGroups (g1 g2 : List Nat) (st : PartitionSim) :
    PartitionSim :=
  g1.foldl (fun acc n1 =>
    g2.foldl (fun acc2 n2 =>
      dropConnection n2 n1 (dropConnection n1 n2 acc2)) acc) st

/-- The double loop over group pairs `i < j` in
`NetworkPartitionEvent::execute`, in iteration order. -/
def dropAllPairs : List (List Nat) → PartitionSim → PartitionSim
  | [], st => st
  | g :: rest, st =>
    dropAllPairs rest
      (rest.foldl (fun acc g2 => dropConnectionsBetweenGroups g g2 acc) st)

/-- The partition-id loop body of `NetworkPartitionEvent::execute` for one
group: tag each node that exists in the manager (`getNode` non-null). -/
def tagGroup (g : List Nat) (pid : Nat) (st : PartitionSim) : PartitionSim :=
  g.foldl (fun acc nodeId =>
    if nodeId ∈ acc.node_ids then setPartitionId nodeId pid acc else acc) st

/-- The outer partition-id loop: group `i` is tagged with `i + 1` (1-based
partition ids), groups processed in order. -/
def tagGroupsFrom (i : Nat) : List (List Nat) → PartitionSim → PartitionSim
  | [], st => st
  | g :: rest, st => tagGroupsFrom (i+1) rest (tagGroup g (i+1) st)

/-- `NetworkPartitionEvent::execute`: drop all inter-group connections, then
assign 1-based partition ids. -/
def partitionExecute (groups : List (List Nat)) (st : PartitionSim) :
    PartitionSim :=
  tagGroupsFrom 0 groups (dropAllPairs groups st)

/-- `NetworkHealEvent::execute`: restore all connections, then clear the
partition id of every node of the manager. -/
def healExecute (st : PartitionSim) : PartitionSim :=
  let st1 := restoreAllConnections st
  st1.node_ids.foldl (fun acc n => setPartitionId n 0 acc) st1

end PartitionSim

/- ---------------------------------------------------------------------
   Part 7: scenario model and validator (src/config/config_loader.cpp,
   include/simulator/config_loader.hpp)

   C++ `float` configuration fields are modelled as rationals; the
   validator only compares them against the constants 0 and 1, which these
   comparisons reproduce exactly.  Fields that no validator reads
   (positions, firmware-specific options, metrics, bandwidth overrides) are
   omitted from the embedded structures.  The C++ field names `mesh_prefix`
   / `id_prefix` are embedded as `meshPfx` / `idPfx` (identifier
   constraint). -/

structure PacketLossConfig where
  probability : Rat := 0
  burst_mode : Bool := false
  burst_length : Nat := 3
deriving DecidableEq

/-- `PacketLossConfig::isValid`. -/
def PacketLossConfig.isValid (c : PacketLossConfig) : Bool :=
  0 ≤ c.probability ∧ c.probability ≤ 1 ∧ 0 < c.burst_length

structure ConnectionLatencyConfig where
  from_ : String := ""
  to_ : String := ""
  config : LatencyConfig := {}
deriving DecidableEq

structure ConnectionPacketLossConfig where
  from_ : String := ""
  to_ : String := ""
  config : PacketLossConfig := {}
deriving DecidableEq

structure NetworkConfig where
  default_latency : LatencyConfig := {}
  specific_latencies : List ConnectionLatencyConfig := []
  default_packet_loss : PacketLossConfig := {}
  specific_packet_losses : List ConnectionPacketLossConfig := []
  packet_loss : Rat := 0
  bandwidth : Nat := 1000000
deriving DecidableEq

structure SimulationConfig where
  name : String := ""
  description : String := ""
  duration : Nat := 0
  time_scale : Rat := 1
  seed : Nat := 0
deriving DecidableEq

structure NodeConfigExtended where
  id : String := ""
  nodeId : Nat := 0
  nodeType : String := ""
  firmware : String := ""
  meshPfx : String := ""
  mesh_password : String := ""
  mesh_port : Nat := 5555
deriving DecidableEq, Inhabited

structure NodeTemplate where
  template_name : String := ""
  count : Nat := 1
  idPfx : String := ""
  base_config : NodeConfigExtended := {}
deriving DecidableEq

inductive TopologyType where
  | RANDOM
  | STAR
  | RING
  | MESH
  | CUSTOM
deriving DecidableEq

structure TopologyConfig where
  topoType : TopologyType := TopologyType.RANDOM
  hub : Option String := none
  density : Rat := ⟨3, 10, by decide, by decide⟩
  bidirectional : Bool := true
  connections : List (String × String) := []
deriving DecidableEq

inductive EventAction where
  | STOP_NODE
  | START_NODE
  | RESTART_NODE
  | REMOVE_NODE
  | ADD_NODES
  | PARTITION_NETWORK
  | HEAL_PARTITION
  | BREAK_LINK
  | RESTORE_LINK
  | INJECT_MESSAGE
  | SET_NETWORK_QUALITY
deriving DecidableEq

structure EventConfig where
  time : Nat := 0
  action : EventAction := EventAction.STOP_NODE
  target : String := ""
  quality : Rat := 1
deriving DecidableEq

structure ScenarioConfig where
  simulation : SimulationConfig := {}
  network : NetworkConfig := {}
  nodes : List NodeConfigExtended := []
  templates : List NodeTemplate := []
  topology : TopologyConfig := {}
  events : List EventConfig := []
deriving DecidableEq

structure ValidationError where
  field : String := ""
  message : String := ""
  suggestion : String := ""
deriving DecidableEq

namespace ConfigLoader

/-- `ConfigLoader::generateNodeId`: `std::hash<std::string>` is
implementation-defined, so the embedding takes the hash value itself as
input and models the arithmetic applied to it — `hash & 0x7FFFFFFF` (the
low 31 bits, i.e. mod 2^31), then forced to 1 when zero. -/
def generateNodeId (hash : Nat) : Nat :=
  let node_id := hash % 2147483648
  if node_id = 0 then 1 else node_id

/-- `ConfigLoader::expandTemplates`, parameterized by the string hash:
each template emits `count` nodes named `id_prefix + i` whose numeric id is
`generateNodeId` of the hash of that name. -/
def expandTemplates (hash : String → Nat) (config : ScenarioConfig) :
    ScenarioConfig :=
  { config with nodes := config.nodes ++
      (config.templates.map (fun tmpl =>
        (List.range tmpl.count).map (fun i =>
          { tmpl.base_config with
              id := tmpl.idPfx ++ toString i,
              nodeId := generateNodeId (hash (tmpl.idPfx ++ toString i)) }))).flatten }

/-- `ConfigLoader::validateSimulation`. -/
def validateSimulation (config : SimulationConfig) : List ValidationError :=
  (if config.name = "" then
    [{ field := "simulation.name", message := "Simulation name is required",
       suggestion := "Add a descriptive name for your simulation" }]
   else []) ++
  (if config.time_scale ≤ 0 then
    [{ field := "simulation.time_scale",
       message := "Time scale must be positive",
       suggestion := "Use 1.0 for real-time, >1.0 for faster simulation" }]
   else [])

/-- `ConfigLoader::validateNetwork`. -/
def validateNetwork (config : NetworkConfig) : List ValidationError :=
  (if config.default_latency.isValid then []
   else
    [{ field := "network.latency.default",
       message := "Minimum latency cannot be greater than maximum",
       suggestion := "Set min <= max" }]) ++
  (config.specific_latencies.enum.map (fun p =>
    (if p.2.from_ = "" then
      [{ field := "network.latency.specific_connections[" ++ toString p.1 ++
           "].from",
         message := "Source node ID cannot be empty",
         suggestion := "Specify a valid node ID" }]
     else []) ++
    (if p.2.to_ = "" then
      [{ field := "network.latency.specific_connections[" ++ toString p.1 ++
           "].to",
         message := "Destination node ID cannot be empty",
         suggestion := "Specify a valid node ID" }]
     else []) ++
    (if p.2.config.isValid then []
     else
      [{ field := "network.latency.specific_connections[" ++ toString p.1 ++
           "]",
         message := "Minimum latency cannot be greater than maximum for connection " ++
           p.2.from_ ++ " -> " ++ p.2.to_,
         suggestion := "Set min <= max" }]))).flatten ++
  (if config.default_packet_loss.isValid then []
   else
    [{ field := "network.packet_loss.default",
       message := "Invalid packet loss configuration",
       suggestion := "Probability must be 0.0-1.0, burst_length must be > 0" }]) ++
  (config.specific_packet_losses.enum.map (fun p =>
    (if p.2.from_ = "" then
      [{ field := "network.packet_loss.specific_connections[" ++
           toString p.1 ++ "].from",
         message := "Source node ID cannot be empty",
         suggestion := "Specify a valid node ID" }]
     else []) ++
    (if p.2.to_ = "" then
      [{ field := "network.packet_loss.specific_connections[" ++
           toString p.1 ++ "].to",
         message := "Destination node ID cannot be empty",
         suggestion := "Specify a valid node ID" }]
     else []) ++
    (if p.2.config.isValid then []
     else
      [{ field := "network.packet_loss.specific_connections[" ++
           toString p.1 ++ "]",
         message := "Invalid packet loss configuration for connection " ++
           p.2.from_ ++ " -> " ++ p.2.to_,
         suggestion := "Probability must be 0.0-1.0, burst_length must be > 0" }]))).flatten ++
  (if config.packet_loss < 0 ∨ 1 < config.packet_loss then
    [{ field := "network.packet_loss",
       message := "Packet loss must be between 0.0 and 1.0",
       suggestion := "Use 0.01 for 1% packet loss" }]
   else []) ++
  (if config.bandwidth = 0 then
    [{ field := "network.bandwidth", message := "Bandwidth cannot be zero",
       suggestion := "Specify bandwidth in bits per second" }]
   else [])

/-- `ConfigLoader::validateNode`. -/
def validateNode (config : NodeConfigExtended) : List ValidationError :=
  (if config.id = "" then
    [{ field := "node.id", message := "Node ID is required",
       suggestion := "Provide a unique identifier for each node" }]
   else []) ++
  (if config.meshPfx = "" then
    [{ field := "node.config.mesh_prefix",
       message := "Mesh prefix is required for node: " ++ config.id,
       suggestion := "Set mesh_prefix in node configuration" }]
   else []) ++
  (if config.mesh_password = "" then
    [{ field := "node.config.mesh_password",
       message := "Mesh password is required for node: " ++ config.id,
       suggestion := "Set mesh_password in node configuration" }]
   else []) ++
  (if config.mesh_port = 0 then
    [{ field := "node.config.mesh_port",
       message := "Invalid mesh port for node: " ++ config.id,
       suggestion := "Use default port 5555 or specify a valid port" }]
   else [])

/-- The duplicate-node-id loop of `ConfigLoader::getValidationErrors`: it
compares the STRING ids only (`node.id`), accumulating seen ids. -/
def dupCheck : List NodeConfigExtended → List String → List ValidationError
  | [], _ => []
  | node :: rest, seen =>
    (if node.id ∈ seen then
      [{ field := "nodes", message := "Duplicate node ID: " ++ node.id,
         suggestion := "Ensure all node IDs are unique" }]
     else []) ++ dupCheck rest (seen ++ [node.id])

/-- `ConfigLoader::validateTopology`. -/
def validateTopology (config : TopologyConfig)
    (all_nodes : List NodeConfigExtended) : List ValidationError :=
  (match config.topoType, config.hub with
   | TopologyType.STAR, some hub =>
     if all_nodes.any (fun n => n.id = hub) then []
     else
      [{ field := "topology.hub", message := "Hub node not found: " ++ hub,
         suggestion := "Ensure hub node ID matches an existing node" }]
   | TopologyType.STAR, none =>
     [{ field := "topology.hub",
        message := "Hub node required for star topology",
        suggestion := "Specify which node should be the central hub" }]
   | _, _ => []) ++
  (if config.topoType = TopologyType.RANDOM then
    (if config.density < 0 ∨ 1 < config.density then
      [{ field := "topology.density",
         message := "Density must be between 0.0 and 1.0",
         suggestion := "Use 0.3 for sparse, 0.7 for dense networks" }]
     else [])
   else []) ++
  (if config.topoType = TopologyType.CUSTOM then
    (if config.connections.isEmpty then
      [{ field := "topology.connections",
         message := "Custom topology requires connection definitions",
         suggestion := "Add connections array with [node1, node2] pairs" }]
     else []) ++
    (config.connections.map (fun conn =>
      (if all_nodes.any (fun n => n.id = conn.1) then []
       else
        [{ field := "topology.connections",
           message := "Connection references non-existent node: " ++ conn.1,
           suggestion := "Ensure all connection nodes exist" }]) ++
      (if all_nodes.any (fun n => n.id = conn.2) then []
       else
        [{ field := "topology.connections",
           message := "Connection references non-existent node: " ++ conn.2,
           suggestion := "Ensure all connection nodes exist" }]))).flatten
   else [])

/-- `ConfigLoader::validateEvent`. -/
def validateEvent (config : EventConfig) (simulation_duration : Nat)
    (all_nodes : List NodeConfigExtended) : List ValidationError :=
  (if 0 < simulation_duration ∧ simulation_duration < config.time then
    [{ field := "event.time",
       message := "Event time " ++ toString config.time ++
         "s exceeds simulation duration " ++ toString simulation_duration ++
         "s",
       suggestion := "Ensure all event times are within simulation duration" }]
   else []) ++
  (if config.target ≠ "" then
    (if all_nodes.any (fun n => n.id = config.target) then []
     else
      [{ field := "event.target",
         message := "Event references non-existent node: " ++ config.target,
         suggestion := "Ensure target node exists" }])
   else []) ++
  (if config.action = EventAction.SET_NETWORK_QUALITY then
    (if config.quality < 0 ∨ 1 < config.quality then
      [{ field := "event.quality",
         message := "Network quality must be between 0.0 and 1.0",
         suggestion := "Use 0.0 for worst, 1.0 for best quality" }]
     else [])
   else [])

/-- `ConfigLoader::getValidationErrors`. -/
def getValidationErrors (config : ScenarioConfig) : List ValidationError :=
  validateSimulation config.simulation ++
  validateNetwork config.network ++
  (config.nodes.map validateNode).flatten ++
  dupCheck config.nodes [] ++
  (if config.nodes.isEmpty then
    [{ field := "nodes", message := "No nodes defined",
       suggestion := "Add at least one node or template" }]
   else []) ++
  validateTopology config.topology config.nodes ++
  (config.events.map (fun e =>
    validateEvent e config.simulation.duration config.nodes)).flatten

end ConfigLoader

/- ---------------------------------------------------------------------
   Claim theorems
   --------------------------------------------------------------------- -/

/-- C1: the claim states that `enqueueMessage` decides admission at enqueue
time — inactive link first, then the loss model, and only then latency
sampling, queueing and delivery statistics — and that latency statistics are
updated only for admitted messages.  The implementation has no admission
decision at all: this theorem shows that every call to `enqueueMessage`
unconditionally grows the queue by one message (no link-state check and no
loss sampling exists on the path), and that `getStats` reports
`dropped_count = 0` and `delivered_count = 0` in every reachable state —
`recordStats` maintains no drop or delivery counters, contradicting the
repository tests that demand drops at enqueue time. -/
theorem C1_enqueue_always_admits :
    ∀ (sim : NetworkSimulator) (f t : Nat) (msg : String) (now : Nat),
      (NetworkSimulator.enqueueMessage f t msg now sim).message_queue.length =
        sim.message_queue.length + 1 ∧
      ∀ a b, (NetworkSimulator.getStats a b sim).dropped_count = 0 ∧
        (NetworkSimulator.getStats a b sim).delivered_count = 0 := by
  intro sim f t msg now
  constructor
  · show (CppHeap.push DelayedMessage.deliveryTime _ _).length = _
    unfold CppHeap.push
    rw [CppHeap.siftUp_length]
    simp [NetworkSimulator.recordStats]
  · intro a b
    unfold NetworkSimulator.getStats
    cases mapFind sim.stats_map (a, b) <;> exact ⟨rfl, rfl⟩

/-- C3: the claim states that the connection choices of
`establishConnectivity` are identical across runs with the same scenario and
seed because the random source is deterministic given the simulator seed.
The implementation draws from `std::rand()` — the ambient C runtime
generator, never seeded from the simulator seed (the repository contains no
`srand` call) — so the choices are a function of the ambient generator
state, not of the seed: with the same node list (and any fixed seed, which
is not even an input of the function) two different ambient states yield
different spanning trees. -/
theorem C3_connectivity_follows_ambient_rand :
    NodeManager.establishConnectivity (fun _ => 0) 0 [101, 102, 103] =
      [(102, 101), (103, 101)] ∧
    NodeManager.establishConnectivity (fun _ => 1) 0 [101, 102, 103] =
      [(102, 101), (103, 102)] ∧
    NodeManager.establishConnectivity (fun _ => 0) 0 [101, 102, 103] ≠
      NodeManager.establishConnectivity (fun _ => 1) 0 [101, 102, 103] := by
  refine ⟨rfl, rfl, ?_⟩
  decide

/-- The queue obtained by scheduling four events — eids 1, 2, 3, 4 in that
registration order — all at time 30 into an empty scheduler. -/
def c4queue : List SEvent :=
  EventScheduler.scheduleEvent { eid := 4 } 30
    (EventScheduler.scheduleEvent { eid := 3 } 30
      (EventScheduler.scheduleEvent { eid := 2 } 30
        (EventScheduler.scheduleEvent { eid := 1 } 30 [])))

/-- C4: the claim states that `processEvents(t)` executes all due events
with same-time events in registration (FIFO) order.  The comparator orders
by `scheduledTime` alone and `std::priority_queue` is not stable: with four
events registered at the same time 30, `processEvents 30` pops and executes
them in the order 1, 3, 2, 4 — not the registration order 1, 2, 3, 4 —
contradicting the documented FIFO guarantee of `EventComparator`
(event_scheduler.hpp).  The due/count/remaining parts of the claim are
visible here too: all four due events execute in one call and the queue is
left empty. -/
theorem C4_same_time_events_not_fifo :
    (EventScheduler.processEvents 30 c4queue).attempted.map SEvent.eid =
      [1, 3, 2, 4] ∧
    (EventScheduler.processEvents 30 c4queue).count = 4 ∧
    (EventScheduler.processEvents 30 c4queue).remaining = [] ∧
    [1, 3, 2, 4] ≠ [1, 2, 3, 4] := by
  have hq : c4queue = [{ eid := 1, scheduledTime := 30 },
      { eid := 2, scheduledTime := 30 }, { eid := 3, scheduledTime := 30 },
      { eid := 4, scheduledTime := 30 }] := by
    simp [c4queue, EventScheduler.scheduleEvent, CppHeap.push, CppHeap.siftUp]
  refine ⟨?_, ?_, ?_, by decide⟩ <;>
    simp [hq, EventScheduler.processEvents, CppHeap.pop, CppHeap.adjustDesc,
      CppHeap.minChild, CppHeap.siftUp]

/-- The `{50, 50, UNIFORM}` latency configuration of the repository tests
(min = max, so enqueue latency is exactly 50 and no generator draw is
consumed). -/
def c2cfg : LatencyConfig :=
  { min_ms := 50, max_ms := 50, distribution := DistributionType.UNIFORM }

/-- A freshly constructed simulator with the default latency set to
`c2cfg`. -/
def c2sim1 : NetworkSimulator :=
  { NetworkSimulator.init (fun _ => 0) with default_latency := c2cfg }

/-- Four messages enqueued on link 1 → 2 at the same current time 1000, in
the order m1, m2, m3, m4; all four get delivery time 1050. -/
def c2final : NetworkSimulator :=
  NetworkSimulator.enqueueMessage 1 2 "m4" 1000
    (NetworkSimulator.enqueueMessage 1 2 "m3" 1000
      (NetworkSimulator.enqueueMessage 1 2 "m2" 1000
        (NetworkSimulator.enqueueMessage 1 2 "m1" 1000 c2sim1)))

/-- C2 counterexample: the claim states that messages with equal
`delivery_time_ms` are returned by `getReadyMessages` in enqueue (FIFO)
order, guaranteed by a secondary monotonic sequence number.  `DelayedMessage`
carries no sequence number and `operator>` compares `deliveryTime` only:
with four messages enqueued m1, m2, m3, m4 at the same delivery time 1050,
`getReadyMessages 1050` returns them in heap order m1, m3, m2, m4 — not the
enqueue order. -/
theorem C2_fifo_counterexample :
    NetworkSimulator.setDefaultLatency c2cfg
        (NetworkSimulator.init (fun _ => 0)) = Except.ok c2sim1 ∧
    c2final.message_queue.map DelayedMessage.message =
      ["m1", "m2", "m3", "m4"] ∧
    c2final.message_queue.map DelayedMessage.deliveryTime =
      [1050, 1050, 1050, 1050] ∧
    (NetworkSimulator.getReadyMessages 1050 c2final).1.map
      DelayedMessage.message = ["m1", "m3", "m2", "m4"] ∧
    (["m1", "m3", "m2", "m4"] : List String) ≠ ["m1", "m2", "m3", "m4"] := by
  have hq : c2final.message_queue =
      [{ from_ := 1, to_ := 2, message := "m1", deliveryTime := 1050 },
       { from_ := 1, to_ := 2, message := "m2", deliveryTime := 1050 },
       { from_ := 1, to_ := 2, message := "m3", deliveryTime := 1050 },
       { from_ := 1, to_ := 2, message := "m4", deliveryTime := 1050 }] := by
    simp [c2final, c2sim1, c2cfg, NetworkSimulator.enqueueMessage,
      NetworkSimulator.getLatency, NetworkSimulator.calculateLatency,
      NetworkSimulator.uniformDistribution, NetworkSimulator.recordStats,
      NetworkSimulator.init, mapFind, mapSet, CppHeap.push, CppHeap.siftUp]
  refine ⟨rfl, ?_, ?_, ?_, by decide⟩
  · rw [hq]; rfl
  · rw [hq]; rfl
  · show (NetworkSimulator.drainReady 1050 c2final.message_queue).1.map
      DelayedMessage.message = _
    rw [hq]
    simp [NetworkSimulator.drainReady, CppHeap.pop, CppHeap.adjustDesc,
      CppHeap.minChild, CppHeap.siftUp]

/-- C2 amended: `getReadyMessages now` returns exactly the queued messages
with `deliveryTime ≤ now`, in ascending `deliveryTime` order, and leaves
exactly the others queued; but among equal delivery times the order is the
binary heap pop order, not the enqueue order — `DelayedMessage::operator>`
compares `deliveryTime` only and carries no insertion sequence number, so
two messages with equal delivery times are indistinguishable to the queue
ordering. -/
theorem C2_amended_ready_order (t : Nat) (sim : NetworkSimulator)
    (hwf : CppHeap.wfb DelayedMessage.deliveryTime sim.message_queue = true) :
    (NetworkSimulator.getReadyMessages t sim).1.Perm
      (sim.message_queue.filter (fun m => decide (m.deliveryTime ≤ t))) ∧
    List.Pairwise (fun a b => a.deliveryTime ≤ b.deliveryTime)
      (NetworkSimulator.getReadyMessages t sim).1 ∧
    (NetworkSimulator.getReadyMessages t sim).2.message_queue.Perm
      (sim.message_queue.filter (fun m => decide (¬ m.deliveryTime ≤ t))) ∧
    (∀ a b : DelayedMessage, a.deliveryTime = b.deliveryTime →
      DelayedMessage.gtOp a b = false) := by
  have hspec := NetworkSimulator.drainReady_spec_aux t
    sim.message_queue.length sim.message_queue (Nat.le_refl _) hwf
  obtain ⟨h1, h2, h3⟩ := hspec
  refine ⟨?_, h3, ?_, ?_⟩
  · apply Multiset.coe_eq_coe.mp
    show ((NetworkSimulator.drainReady t sim.message_queue).1 :
        Multiset DelayedMessage) = _
    rw [h1, ← Multiset.filter_coe]
  · apply Multiset.coe_eq_coe.mp
    show ((NetworkSimulator.drainReady t sim.message_queue).2 :
        Multiset DelayedMessage) = _
    rw [h2, ← Multiset.filter_coe]
  · intro a b hab
    simp [DelayedMessage.gtOp, hab]

/-- Witness for `C2_amended_ready_order` at the concrete four-message
queue. -/
theorem C2_amended_ready_order_witness :
    CppHeap.wfb DelayedMessage.deliveryTime c2final.message_queue = true ∧
    (NetworkSimulator.getReadyMessages 1050 c2final).1.Perm
      (c2final.message_queue.filter
        (fun m => decide (m.deliveryTime ≤ 1050))) := by
  have hq : c2final.message_queue =
      [{ from_ := 1, to_ := 2, message := "m1", deliveryTime := 1050 },
       { from_ := 1, to_ := 2, message := "m2", deliveryTime := 1050 },
       { from_ := 1, to_ := 2, message := "m3", deliveryTime := 1050 },
       { from_ := 1, to_ := 2, message := "m4", deliveryTime := 1050 }] := by
    simp [c2final, c2sim1, c2cfg, NetworkSimulator.enqueueMessage,
      NetworkSimulator.getLatency, NetworkSimulator.calculateLatency,
      NetworkSimulator.uniformDistribution, NetworkSimulator.recordStats,
      NetworkSimulator.init, mapFind, mapSet, CppHeap.push, CppHeap.siftUp]
  have hwf : CppHeap.wfb DelayedMessage.deliveryTime c2final.message_queue
      = true := by
    rw [hq]
    decide
  exact ⟨hwf, (C2_amended_ready_order 1050 c2final hwf).1⟩

/-- A post-expansion node spec whose numeric id derives from the given
string hash value, with otherwise valid fields. -/
def c5node (idStr : String) (h : Nat) : NodeConfigExtended :=
  { id := idStr, nodeId := ConfigLoader.generateNodeId h,
    meshPfx := "TestMesh", mesh_password := "password" }

/-- An otherwise fully valid scenario whose two nodes have distinct string
ids but colliding derived numeric ids (`std::hash` values 0 and 2^31 both
map to 1 under `generateNodeId`). -/
def c5config : ScenarioConfig :=
  { simulation := { name := "CollisionScenario", duration := 60 },
    nodes := [c5node "a" 0, c5node "b" 2147483648] }

/-- C5 counterexample: the claim states that all derived numeric NodeIds
are pairwise distinct and that a collision of derived ids makes validation
fail.  The derived-id map is not injective — the hash values 0 and 2^31
both map to NodeId 1 — and `getValidationErrors` compares only the string
ids, so a scenario whose two nodes have distinct string ids but equal
derived numeric ids passes validation with no error at all. -/
theorem C5_collision_counterexample :
    (c5node "a" 0).nodeId = (c5node "b" 2147483648).nodeId ∧
    (c5node "a" 0).id ≠ (c5node "b" 2147483648).id ∧
    ConfigLoader.getValidationErrors c5config = [] := by
  refine ⟨rfl, by decide, by decide⟩

/-- C5 amended: every derived NodeId is non-zero (`generateNodeId` forces a
zero masked hash to 1), and validation does fail on duplicate STRING node
ids — but derived numeric ids are never checked for collisions, and the
hash-to-id mapping is not injective (see the counterexample). -/
theorem C5_amended_nonzero_and_string_dup :
    (∀ h, ConfigLoader.generateNodeId h ≠ 0) ∧
    ConfigLoader.getValidationErrors
      { simulation := { name := "Dup", duration := 60 },
        nodes := [c5node "a" 0, c5node "a" 7] } ≠ [] := by
  constructor
  · intro h
    unfold ConfigLoader.generateNodeId
    dsimp only
    split
    · exact Nat.one_ne_zero
    · assumption
  · decide

/-- `start` never changes `crash_count` (whether or not it throws). -/
theorem start_crash_count (now : Nat) (s : VNState) :
    (VirtualNode.start now s).1.crash_count = s.crash_count := by
  unfold VirtualNode.start VirtualNode.setupFirmware
  split
  · rfl
  · dsimp only
    split
    · rfl
    · split <;> rfl

/-- `stop` never changes `crash_count`. -/
theorem stop_crash_count (now : Nat) (s : VNState) :
    (VirtualNode.stop now s).crash_count = s.crash_count := by
  unfold VirtualNode.stop
  split <;> rfl

/-- `restart` never changes `crash_count`. -/
theorem restart_crash_count (now : Nat) (s : VNState) :
    (VirtualNode.restart now s).crash_count = s.crash_count := by
  unfold VirtualNode.restart
  rw [start_crash_count, stop_crash_count]

/-- Per-operation `crash_count` delta: +1 exactly for a `crash()` issued
while running, 0 otherwise. -/
theorem applyOp_crash_count (s : VNState) (op : VirtualNode.VNOp) :
    (VirtualNode.applyOp s op).crash_count =
      s.crash_count + VirtualNode.crashDelta s op := by
  cases op with
  | startOp now =>
    show (VirtualNode.start now s).1.crash_count = s.crash_count + 0
    rw [start_crash_count, Nat.add_zero]
  | stopOp now =>
    show (VirtualNode.stop now s).crash_count = s.crash_count + 0
    rw [stop_crash_count, Nat.add_zero]
  | crashOp now =>
    show (VirtualNode.crash now s).crash_count =
      s.crash_count + (if s.running then 1 else 0)
    unfold VirtualNode.crash
    cases hr : s.running <;> simp [hr]
  | restartOp now =>
    show (VirtualNode.restart now s).crash_count = s.crash_count + 0
    rw [restart_crash_count, Nat.add_zero]
  | loadOp fw =>
    rfl

/-- Accumulated form over an operation sequence. -/
theorem runOps_crash_count (ops : List VirtualNode.VNOp) (s : VNState) :
    (VirtualNode.runOps s ops).crash_count =
      s.crash_count + VirtualNode.crashesWhileRunning s ops := by
  induction ops generalizing s with
  | nil => rfl
  | cons op rest ih =>
    show (VirtualNode.runOps (VirtualNode.applyOp s op) rest).crash_count = _
    rw [ih, applyOp_crash_count, VirtualNode.crashesWhileRunning]
    omega

/-- C6: `crash()` on a running node adds the elapsed uptime exactly as
`stop()` does and increments `crash_count` by one; `crash()` on a stopped
node is a silent no-op (state unchanged); `stop()` and `restart()` never
change `crash_count`; and over any sequence of lifecycle operations the
final `crash_count` equals the initial one plus the number of `crash()`
calls issued while the node was running. -/
theorem C6_crash_count_exact :
    ∀ (s : VNState) (ops : List VirtualNode.VNOp),
      (VirtualNode.runOps s ops).crash_count =
        s.crash_count + VirtualNode.crashesWhileRunning s ops ∧
      (∀ now, (VirtualNode.stop now s).crash_count = s.crash_count) ∧
      (∀ now, (VirtualNode.restart now s).crash_count = s.crash_count) ∧
      (∀ now, VirtualNode.crash now { s with running := false } =
        { s with running := false }) ∧
      (∀ now,
        (VirtualNode.crash now { s with running := true }).crash_count =
          s.crash_count + 1 ∧
        (VirtualNode.crash now { s with running := true }).total_uptime_ms =
          (VirtualNode.stop now { s with running := true }).total_uptime_ms) := by
  intro s ops
  refine ⟨runOps_crash_count ops s, fun now => stop_crash_count now s,
    fun now => restart_crash_count now s, fun now => ?_, fun now => ⟨?_, ?_⟩⟩
  · unfold VirtualNode.crash
    simp
  · unfold VirtualNode.crash
    simp
  · unfold VirtualNode.crash VirtualNode.stop
    simp

/-- Concrete scheduler heap for the C7 witness: three events, the middle one
failing, all in valid heap order. -/
def c7q : List SEvent :=
  [{ scheduledTime := 10, eid := 1, fails := false },
   { scheduledTime := 20, eid := 2, fails := true },
   { scheduledTime := 30, eid := 3, fails := false }]

/-- C7: when an event throws during `processEvents`, the exception is caught
and the drain continues: for a well-formed heap, the set of events whose
`execute` is invoked is exactly the due events (`scheduledTime ≤ t`) whether
they fail or not, the remaining queue is exactly the not-yet-due events — so
a failing event is gone from the queue and is never retried — and the
returned count tallies only the non-throwing executions. -/
theorem C7_exception_caught_drain_continues (t : Nat) (q : List SEvent)
    (hwf : CppHeap.wfb SEvent.scheduledTime q = true) :
    (((EventScheduler.processEvents t q).attempted : List SEvent) :
        Multiset SEvent) =
      Multiset.filter (fun e => e.scheduledTime ≤ t)
        ((q : List SEvent) : Multiset SEvent) ∧
    (((EventScheduler.processEvents t q).remaining : List SEvent) :
        Multiset SEvent) =
      Multiset.filter (fun e => ¬ e.scheduledTime ≤ t)
        ((q : List SEvent) : Multiset SEvent) ∧
    (EventScheduler.processEvents t q).count =
      ((EventScheduler.processEvents t q).attempted.filter
        (fun e => !e.fails)).length ∧
    (∀ e ∈ (EventScheduler.processEvents t q).remaining,
      ¬ e.scheduledTime ≤ t) := by
  obtain ⟨ha, hr, hc⟩ :=
    EventScheduler.processEvents_spec_aux t q.length q (le_refl _) hwf
  refine ⟨ha, hr, hc, ?_⟩
  intro e he
  have hmem : e ∈ (((EventScheduler.processEvents t q).remaining :
      List SEvent) : Multiset SEvent) := by exact_mod_cast he
  rw [hr] at hmem
  exact (Multiset.mem_filter.mp hmem).2

/-- C7 witness: the concrete heap `c7q` drained at `t = 35` — all three
events execute (the failing one included), none remain, the count is 2. -/
theorem C7_exception_caught_witness :
    CppHeap.wfb SEvent.scheduledTime c7q = true ∧
    ((((EventScheduler.processEvents 35 c7q).attempted : List SEvent) :
        Multiset SEvent) =
      Multiset.filter (fun e => e.scheduledTime ≤ 35)
        ((c7q : List SEvent) : Multiset SEvent) ∧
    (((EventScheduler.processEvents 35 c7q).remaining : List SEvent) :
        Multiset SEvent) =
      Multiset.filter (fun e => ¬ e.scheduledTime ≤ 35)
        ((c7q : List SEvent) : Multiset SEvent) ∧
    (EventScheduler.processEvents 35 c7q).count =
      ((EventScheduler.processEvents 35 c7q).attempted.filter
        (fun e => !e.fails)).length ∧
    (∀ e ∈ (EventScheduler.processEvents 35 c7q).remaining,
      ¬ e.scheduledTime ≤ 35)) :=
  ⟨by decide, C7_exception_caught_drain_continues 35 c7q (by decide)⟩

/-- The operation sequence of the C8 counterexample: load firmware fw1,
start, stop, replace the firmware by fw2, start again. -/
def c8ops : List VirtualNode.VNOp :=
  [VirtualNode.VNOp.loadOp (some "fw1"), VirtualNode.VNOp.startOp 0,
   VirtualNode.VNOp.stopOp 10, VirtualNode.VNOp.loadOp (some "fw2"),
   VirtualNode.VNOp.startOp 20]

/-- C8 counterexample: the claim states that `setup()` also runs inside the
first `start()` after a firmware replacement whose new firmware has not yet
been set up.  `loadFirmware` never clears `firmware_initialized_`, so after
load fw1 / start / stop / load fw2 / start the setup log holds only fw1:
the replacement firmware fw2 is started without its `setup()` ever running. -/
theorem C8_replacement_setup_counterexample :
    (VirtualNode.runOps {} c8ops).setup_log = ["fw1"] ∧
    "fw2" ∉ (VirtualNode.runOps {} c8ops).setup_log ∧
    (VirtualNode.runOps {} c8ops).firmware = some "fw2" ∧
    (VirtualNode.runOps {} c8ops).running = true := by
  refine ⟨rfl, by decide, rfl, rfl⟩

/-- `start` on an already-initialized node keeps the flag and the log. -/
theorem start_initialized (now : Nat) (s : VNState)
    (h : s.firmware_initialized = true) :
    (VirtualNode.start now s).1.firmware_initialized = true ∧
    (VirtualNode.start now s).1.setup_log = s.setup_log := by
  cases hr : s.running <;> cases hf : s.firmware <;>
    simp [VirtualNode.start, VirtualNode.setupFirmware, hr, hf, h]

/-- `stop` keeps the flag and the log. -/
theorem stop_initialized (now : Nat) (s : VNState)
    (h : s.firmware_initialized = true) :
    (VirtualNode.stop now s).firmware_initialized = true ∧
    (VirtualNode.stop now s).setup_log = s.setup_log := by
  unfold VirtualNode.stop
  split <;> exact ⟨h, rfl⟩

/-- `crash` keeps the flag and the log. -/
theorem crash_initialized (now : Nat) (s : VNState)
    (h : s.firmware_initialized = true) :
    (VirtualNode.crash now s).firmware_initialized = true ∧
    (VirtualNode.crash now s).setup_log = s.setup_log := by
  unfold VirtualNode.crash
  split <;> exact ⟨h, rfl⟩

/-- No lifecycle operation ever clears `firmware_initialized_`, and once it
is set no operation appends to the setup log. -/
theorem applyOp_initialized (s : VNState) (op : VirtualNode.VNOp)
    (h : s.firmware_initialized = true) :
    (VirtualNode.applyOp s op).firmware_initialized = true ∧
    (VirtualNode.applyOp s op).setup_log = s.setup_log := by
  cases op with
  | startOp now => exact start_initialized now s h
  | stopOp now => exact stop_initialized now s h
  | crashOp now => exact crash_initialized now s h
  | restartOp now =>
    obtain ⟨h1, h2⟩ := stop_initialized now s h
    obtain ⟨h3, h4⟩ := start_initialized now (VirtualNode.stop now s) h1
    exact ⟨h3, h4.trans h2⟩
  | loadOp fw => exact ⟨h, rfl⟩

/-- Accumulated over a sequence. -/
theorem runOps_initialized (ops : List VirtualNode.VNOp) (s : VNState)
    (h : s.firmware_initialized = true) :
    (VirtualNode.runOps s ops).firmware_initialized = true ∧
    (VirtualNode.runOps s ops).setup_log = s.setup_log := by
  induction ops generalizing s with
  | nil => exact ⟨h, rfl⟩
  | cons op rest ih =>
    show ((VirtualNode.runOps (VirtualNode.applyOp s op) rest).firmware_initialized
        = true ∧ _)
    obtain ⟨h1, h2⟩ := applyOp_initialized s op h
    obtain ⟨h3, h4⟩ := ih (VirtualNode.applyOp s op) h1
    exact ⟨h3, h4.trans h2⟩

/-- C8 amended: `setup()` runs inside the first `start()` of a loaded,
never-initialized firmware, and after `firmware_initialized_` is set no
operation sequence — including firmware replacements and further starts —
ever invokes `setup()` again or clears the flag.  (The claim's
replacement case is false: see the counterexample.) -/
theorem C8_amended_setup_at_most_once (s : VNState)
    (ops : List VirtualNode.VNOp)
    (hinit : s.firmware_initialized = true)
    (t : VNState) (now : Nat) (fw : String)
    (hfw : t.firmware = some fw)
    (htinit : t.firmware_initialized = false)
    (htrun : t.running = false) :
    (VirtualNode.runOps s ops).setup_log = s.setup_log ∧
    (VirtualNode.runOps s ops).firmware_initialized = true ∧
    (VirtualNode.start now t).1.setup_log = t.setup_log ++ [fw] ∧
    (VirtualNode.start now t).1.firmware_initialized = true := by
  obtain ⟨h1, h2⟩ := runOps_initialized ops s hinit
  refine ⟨h2, h1, ?_, ?_⟩ <;>
  · unfold VirtualNode.start VirtualNode.setupFirmware
    rw [if_neg (by rw [htrun]; exact Bool.false_ne_true)]
    dsimp only
    rw [hfw]
    dsimp only
    rw [if_neg (by rw [htinit]; exact Bool.false_ne_true)]

/-- Initial state of the C8 amended witness: fw1 loaded and set up. -/
def c8s0 : VNState :=
  { firmware := some "fw1", firmware_initialized := true,
    setup_log := ["fw1"] }

/-- Fresh node of the C8 amended witness: fw loaded, never started. -/
def c8t0 : VNState := { firmware := some "fw" }

/-- C8 amended witness: a node already initialized on fw1 runs the c8ops
sequence without any further `setup()`; a fresh node with fw loaded runs
`setup()` inside its first `start()`. -/
theorem C8_amended_witness :
    c8s0.firmware_initialized = true ∧
    c8t0.firmware = some "fw" ∧
    c8t0.firmware_initialized = false ∧
    c8t0.running = false ∧
    ((VirtualNode.runOps c8s0 c8ops).setup_log = c8s0.setup_log ∧
    (VirtualNode.runOps c8s0 c8ops).firmware_initialized = true ∧
    (VirtualNode.start 0 c8t0).1.setup_log = c8t0.setup_log ++ ["fw"] ∧
    (VirtualNode.start 0 c8t0).1.firmware_initialized = true) :=
  ⟨rfl, rfl, rfl, rfl,
    C8_amended_setup_at_most_once c8s0 c8ops rfl c8t0 0 "fw" rfl rfl rfl⟩

namespace PartitionSim

/-- Generic preservation: a fold whose step never touches `node_ids` or
`partition_ids` leaves both unchanged. -/
theorem foldl_preserve {β : Type} (f : PartitionSim → β → PartitionSim)
    (hf : ∀ st b, (f st b).node_ids = st.node_ids ∧
      (f st b).partition_ids = st.partition_ids) :
    ∀ (l : List β) (st : PartitionSim),
      (l.foldl f st).node_ids = st.node_ids ∧
      (l.foldl f st).partition_ids = st.partition_ids := by
  intro l
  induction l with
  | nil => intro st; exact ⟨rfl, rfl⟩
  | cons a rest ih =>
    intro st
    rw [List.foldl_cons]
    obtain ⟨h1, h2⟩ := ih (f st a)
    obtain ⟨h3, h4⟩ := hf st a
    exact ⟨h1.trans h3, h2.trans h4⟩

theorem dropConnection_pres (a b : Nat) (st : PartitionSim) :
    (dropConnection a b st).node_ids = st.node_ids ∧
    (dropConnection a b st).partition_ids = st.partition_ids := by
  unfold dropConnection
  split <;> exact ⟨rfl, rfl⟩

theorem dropBetween_pres (g1 g2 : List Nat) (st : PartitionSim) :
    (dropConnectionsBetweenGroups g1 g2 st).node_ids = st.node_ids ∧
    (dropConnectionsBetweenGroups g1 g2 st).partition_ids =
      st.partition_ids :=
  foldl_preserve _ (fun st1 n1 =>
    foldl_preserve _ (fun st2 n2 =>
      ⟨((dropConnection_pres n2 n1 _).1).trans (dropConnection_pres n1 n2 st2).1,
       ((dropConnection_pres n2 n1 _).2).trans (dropConnection_pres n1 n2 st2).2⟩)
      g2 st1) g1 st

theorem dropAllPairs_pres : ∀ (gs : List (List Nat)) (st : PartitionSim),
    (dropAllPairs gs st).node_ids = st.node_ids ∧
    (dropAllPairs gs st).partition_ids = st.partition_ids := by
  intro gs
  induction gs with
  | nil => intro st; exact ⟨rfl, rfl⟩
  | cons g rest ih =>
    intro st
    show (dropAllPairs rest
      (rest.foldl (fun acc g2 => dropConnectionsBetweenGroups g g2 acc) st)).node_ids
        = st.node_ids ∧ _
    obtain ⟨h1, h2⟩ :=
      ih (rest.foldl (fun acc g2 => dropConnectionsBetweenGroups g g2 acc) st)
    obtain ⟨h3, h4⟩ := foldl_preserve
      (fun acc g2 => dropConnectionsBetweenGroups g g2 acc)
      (fun st2 g2 => dropBetween_pres g g2 st2) rest st
    exact ⟨h1.trans h3, h2.trans h4⟩

theorem tagGroup_node_ids (g : List Nat) (pid : Nat) (st : PartitionSim) :
    (tagGroup g pid st).node_ids = st.node_ids := by
  induction g generalizing st with
  | nil => rfl
  | cons a rest ih =>
    show (tagGroup rest pid
      (if a ∈ st.node_ids then setPartitionId a pid st else st)).node_ids = _
    rw [ih]
    split <;> rfl

/-- Value of a node partition tag after one `tagGroup` pass. -/
theorem tagGroup_pid (n : Nat) (g : List Nat) (pid : Nat) (st : PartitionSim) :
    (tagGroup g pid st).partition_ids n =
      if n ∈ st.node_ids ∧ n ∈ g then pid else st.partition_ids n := by
  induction g generalizing st with
  | nil => simp [tagGroup]
  | cons a rest ih =>
    show (tagGroup rest pid
      (if a ∈ st.node_ids then setPartitionId a pid st else st)).partition_ids n = _
    rw [ih]
    by_cases ha : a ∈ st.node_ids
    · rw [if_pos ha]
      by_cases hn : n ∈ st.node_ids
      · by_cases hr : n ∈ rest
        · simp [setPartitionId, hn, hr]
        · by_cases hna : n = a
          · subst hna
            simp [setPartitionId, hn, hr]
          · simp [setPartitionId, hn, hr, hna]
      · have hna : n ≠ a := fun h => hn (h ▸ ha)
        simp [setPartitionId, hn, hna]
    · rw [if_neg ha]
      by_cases hn : n ∈ st.node_ids
      · by_cases hr : n ∈ rest
        · simp [hn, hr]
        · by_cases hna : n = a
          · subst hna
            exact absurd hn ha
          · simp [hn, hr, hna]
      · simp [hn]

/-- The partition tag a node obtains from the 1-based group tagging loop
started at base index `i`, given its previous tag `old`: the last group
containing the node wins. -/
def groupTagFrom (n : Nat) (i : Nat) (gs : List (List Nat)) (old : Nat) : Nat :=
  match gs with
  | [] => old
  | g :: rest => groupTagFrom n (i+1) rest (if n ∈ g then i + 1 else old)

theorem tagGroupsFrom_node_ids :
    ∀ (gs : List (List Nat)) (i : Nat) (st : PartitionSim),
      (tagGroupsFrom i gs st).node_ids = st.node_ids := by
  intro gs
  induction gs with
  | nil => intro i st; rfl
  | cons g rest ih =>
    intro i st
    show (tagGroupsFrom (i+1) rest (tagGroup g (i+1) st)).node_ids = _
    rw [ih, tagGroup_node_ids]

theorem tagGroupsFrom_pid (n : Nat) :
    ∀ (gs : List (List Nat)) (i : Nat) (st : PartitionSim),
      n ∈ st.node_ids →
      (tagGroupsFrom i gs st).partition_ids n =
        groupTagFrom n i gs (st.partition_ids n) := by
  intro gs
  induction gs with
  | nil => intro i st _; rfl
  | cons g rest ih =>
    intro i st hn
    show (tagGroupsFrom (i+1) rest (tagGroup g (i+1) st)).partition_ids n = _
    rw [ih (i+1) (tagGroup g (i+1) st) (by rw [tagGroup_node_ids]; exact hn)]
    rw [tagGroup_pid]
    show groupTagFrom n (i+1) rest (if n ∈ st.node_ids ∧ n ∈ g then i + 1
      else st.partition_ids n) = groupTagFrom n (i+1) rest _
    by_cases hg : n ∈ g
    · simp [hn, hg]
    · simp [hg]

/-- A node contained in no group keeps its accumulator. -/
theorem groupTagFrom_not_mem (n : Nat) :
    ∀ (gs : List (List Nat)) (i old : Nat), (∀ g ∈ gs, n ∉ g) →
      groupTagFrom n i gs old = old := by
  intro gs
  induction gs with
  | nil => intro i old _; rfl
  | cons g rest ih =>
    intro i old hall
    show groupTagFrom n (i+1) rest (if n ∈ g then i + 1 else old) = old
    rw [if_neg (hall g (List.mem_cons_self g rest))]
    exact ih (i+1) old (fun g2 hg2 => hall g2 (List.mem_cons_of_mem g hg2))

/-- A node contained in some group receives a non-zero tag. -/
theorem groupTagFrom_ne_zero (n : Nat) :
    ∀ (gs : List (List Nat)) (i old : Nat), (∃ g ∈ gs, n ∈ g) →
      groupTagFrom n i gs old ≠ 0 := by
  intro gs
  induction gs with
  | nil =>
    intro i old hex
    obtain ⟨g, hg, _⟩ := hex
    exact absurd hg (List.not_mem_nil g)
  | cons g rest ih =>
    intro i old hex
    show groupTagFrom n (i+1) rest (if n ∈ g then i + 1 else old) ≠ 0
    by_cases hrest : ∃ g2 ∈ rest, n ∈ g2
    · exact ih (i+1) _ hrest
    · have hg : n ∈ g := by
        obtain ⟨g2, hg2, hng2⟩ := hex
        rcases List.mem_cons.mp hg2 with heq | hmem
        · rw [← heq]; exact hng2
        · exact absurd ⟨g2, hmem, hng2⟩ hrest
      rw [groupTagFrom_not_mem n rest (i+1) _
        (fun g2 hg2 hng2 => hrest ⟨g2, hg2, hng2⟩)]
      rw [if_pos hg]
      omega

theorem partitionExecute_pid (groups : List (List Nat)) (st : PartitionSim)
    (n : Nat) (hn : n ∈ st.node_ids) :
    (partitionExecute groups st).partition_ids n =
      groupTagFrom n 0 groups (st.partition_ids n) := by
  unfold partitionExecute
  obtain ⟨h1, h2⟩ := dropAllPairs_pres groups st
  rw [tagGroupsFrom_pid n groups 0 (dropAllPairs groups st)
    (by rw [h1]; exact hn)]
  rw [h2]

theorem partitionExecute_node_ids (groups : List (List Nat))
    (st : PartitionSim) :
    (partitionExecute groups st).node_ids = st.node_ids := by
  unfold partitionExecute
  rw [tagGroupsFrom_node_ids, (dropAllPairs_pres groups st).1]

/-- The heal loop: every node of the manager gets tag 0, others keep
theirs. -/
theorem setZero_foldl (l : List Nat) :
    ∀ (st : PartitionSim),
      ((l.foldl (fun acc n => setPartitionId n 0 acc) st)).node_ids =
        st.node_ids ∧
      ∀ n, ((l.foldl (fun acc n => setPartitionId n 0 acc) st)).partition_ids n =
        if n ∈ l then 0 else st.partition_ids n := by
  induction l with
  | nil =>
    intro st
    refine ⟨rfl, fun n => ?_⟩
    simp
  | cons a rest ih =>
    intro st
    rw [List.foldl_cons]
    obtain ⟨h1, h2⟩ := ih (setPartitionId a 0 st)
    refine ⟨h1, fun n => ?_⟩
    rw [h2]
    by_cases hr : n ∈ rest
    · simp [hr]
    · by_cases hna : n = a
      · subst hna
        simp [setPartitionId, hr]
      · simp [setPartitionId, hr, hna]

theorem healExecute_pid (st : PartitionSim) (n : Nat)
    (hn : n ∈ st.node_ids) :
    (healExecute st).partition_ids n = 0 := by
  unfold healExecute restoreAllConnections
  rw [(setZero_foldl st.node_ids _).2 n, if_pos hn]

theorem healExecute_node_ids (st : PartitionSim) :
    (healExecute st).node_ids = st.node_ids := by
  unfold healExecute restoreAllConnections
  rw [(setZero_foldl st.node_ids _).1]

end PartitionSim

/-- A partition-related scenario event: a (validated) `NetworkPartitionEvent`
with its groups, or a `NetworkHealEvent`. -/
inductive PEvt where
  | part (groups : List (List Nat))
  | heal
deriving DecidableEq

namespace PartitionSim

/-- Execute one partition-related event. -/
def applyPEvt (st : PartitionSim) : PEvt → PartitionSim
  | PEvt.part groups => partitionExecute groups st
  | PEvt.heal => healExecute st

/-- Execute a sequence of partition-related events. -/
def runPEvts (st : PartitionSim) (evs : List PEvt) : PartitionSim :=
  evs.foldl applyPEvt st

/-- The tag a node holds after a sequence of partition/heal events, given
its tag `old` before them: heal resets to zero, a partition event retags the
node by its last containing group, leaving nodes outside every group
untouched. -/
def pidSpec (n : Nat) : List PEvt → Nat → Nat
  | [], old => old
  | PEvt.part gs :: rest, old => pidSpec n rest (groupTagFrom n 0 gs old)
  | PEvt.heal :: rest, old => pidSpec n rest 0

theorem applyPEvt_node_ids (st : PartitionSim) (e : PEvt) :
    (applyPEvt st e).node_ids = st.node_ids := by
  cases e with
  | part groups => exact partitionExecute_node_ids groups st
  | heal => exact healExecute_node_ids st

theorem runPEvts_pid (n : Nat) :
    ∀ (evs : List PEvt) (st : PartitionSim), n ∈ st.node_ids →
      (runPEvts st evs).partition_ids n =
        pidSpec n evs (st.partition_ids n) := by
  intro evs
  induction evs with
  | nil => intro st _; rfl
  | cons e rest ih =>
    intro st hn
    have hn2 : n ∈ (applyPEvt st e).node_ids := by
      rw [applyPEvt_node_ids]; exact hn
    show (runPEvts (applyPEvt st e) rest).partition_ids n = _
    rw [ih (applyPEvt st e) hn2]
    cases e with
    | part groups =>
      show pidSpec n rest ((partitionExecute groups st).partition_ids n) =
        pidSpec n rest (groupTagFrom n 0 groups (st.partition_ids n))
      rw [partitionExecute_pid groups st n hn]
    | heal =>
      show pidSpec n rest ((healExecute st).partition_ids n) =
        pidSpec n rest 0
      rw [healExecute_pid st n hn]

end PartitionSim

/-- `NetworkPartitionEvent` construction succeeds exactly for at least two
groups, none empty. -/
theorem mkNetworkPartitionEvent_ok_iff (groups : List (List Nat)) :
    mkNetworkPartitionEvent groups = Except.ok groups ↔
      2 ≤ groups.length ∧ ∀ g ∈ groups, g ≠ [] := by
  unfold mkNetworkPartitionEvent
  by_cases h1 : groups.length < 2
  · rw [if_pos h1]
    constructor
    · intro h
      exact absurd h (by simp)
    · rintro ⟨h2, _⟩
      omega
  · rw [if_neg h1]
    by_cases h2 : groups.any (fun g => g.isEmpty) = true
    · rw [if_pos h2]
      constructor
      · intro h
        exact absurd h (by simp)
      · rintro ⟨_, hall⟩
        rw [List.any_eq_true] at h2
        obtain ⟨g, hg, hge⟩ := h2
        exact absurd (List.isEmpty_iff.mp hge) (hall g hg)
    · rw [if_neg h2]
      constructor
      · intro _
        refine ⟨by omega, fun g hg hge => ?_⟩
        exact h2 (List.any_eq_true.mpr ⟨g, hg, List.isEmpty_iff.mpr hge⟩)
      · intro _
        rfl

/-- C9: constructing a `NetworkPartitionEvent` succeeds exactly when there
are at least 2 groups and none is empty (otherwise `std::invalid_argument`);
executing it retags every existing node by its group — the tag of group
`Gi` is `i + 1`, the last containing group winning — so a node in any group
gets a non-zero tag; executing `NetworkHealEvent` resets every existing
node's tag to 0; and over any sequence of partition/heal events the tag of
an existing node is exactly the fold `pidSpec` of those per-event rules. -/
theorem C9_partition_tag_invariant (groups : List (List Nat))
    (st : PartitionSim) (n : Nat) (evs : List PEvt)
    (hn : n ∈ st.node_ids) (hg : ∃ g ∈ groups, n ∈ g) :
    (mkNetworkPartitionEvent groups = Except.ok groups ↔
      2 ≤ groups.length ∧ ∀ g ∈ groups, g ≠ []) ∧
    (PartitionSim.partitionExecute groups st).partition_ids n =
      PartitionSim.groupTagFrom n 0 groups (st.partition_ids n) ∧
    (PartitionSim.partitionExecute groups st).partition_ids n ≠ 0 ∧
    (PartitionSim.healExecute st).partition_ids n = 0 ∧
    (PartitionSim.runPEvts st evs).partition_ids n =
      PartitionSim.pidSpec n evs (st.partition_ids n) := by
  refine ⟨mkNetworkPartitionEvent_ok_iff groups,
    PartitionSim.partitionExecute_pid groups st n hn, ?_,
    PartitionSim.healExecute_pid st n hn,
    PartitionSim.runPEvts_pid n evs st hn⟩
  rw [PartitionSim.partitionExecute_pid groups st n hn]
  exact PartitionSim.groupTagFrom_ne_zero n groups 0 _ hg

/-- Partition state of the C9 witness: two managed nodes, untagged. -/
def c9st : PartitionSim := { node_ids := [1, 2] }

/-- Groups of the C9 witness. -/
def c9groups : List (List Nat) := [[1], [2]]

/-- Event sequence of the C9 witness: partition, then heal. -/
def c9evs : List PEvt := [PEvt.part c9groups, PEvt.heal]

/-- C9 witness: node 1 of the two-node state, partitioned into `[[1],[2]]`
and healed. -/
theorem C9_partition_tag_witness :
    (1 : Nat) ∈ c9st.node_ids ∧
    (∃ g ∈ c9groups, (1 : Nat) ∈ g) ∧
    ((mkNetworkPartitionEvent c9groups = Except.ok c9groups ↔
      2 ≤ c9groups.length ∧ ∀ g ∈ c9groups, g ≠ []) ∧
    (PartitionSim.partitionExecute c9groups c9st).partition_ids 1 =
      PartitionSim.groupTagFrom 1 0 c9groups (c9st.partition_ids 1) ∧
    (PartitionSim.partitionExecute c9groups c9st).partition_ids 1 ≠ 0 ∧
    (PartitionSim.healExecute c9st).partition_ids 1 = 0 ∧
    (PartitionSim.runPEvts c9st c9evs).partition_ids 1 =
      PartitionSim.pidSpec 1 c9evs (c9st.partition_ids 1)) :=
  ⟨by decide, by decide,
    C9_partition_tag_invariant c9groups c9st 1 c9evs (by decide) (by decide)⟩

namespace NodeManager

/-- Inserting an absent key grows the map by exactly one entry. -/
theorem mapInsert_length_of_not_contains (m : List (Nat × NodeConfig))
    (key : Nat) (v : NodeConfig) (h : mapContains m key = false) :
    (mapInsert m key v).length = m.length + 1 := by
  induction m with
  | nil => rfl
  | cons p rest ih =>
    obtain ⟨k0, v0⟩ := p
    have hne : k0 ≠ key := by
      intro he
      rw [mapContains, mapLookup, if_pos he] at h
      simp at h
    have hrest : mapContains rest key = false := by
      rw [mapContains, mapLookup, if_neg hne] at h
      exact h
    show (if key < k0 then (key, v) :: (k0, v0) :: rest
      else if key = k0 then (key, v) :: rest
      else (k0, v0) :: mapInsert rest key v).length = _
    by_cases h1 : key < k0
    · rw [if_pos h1]
      simp
    · rw [if_neg h1, if_neg (fun he => hne he.symm)]
      rw [List.length_cons, List.length_cons, ih hrest]

/-- The inserted key maps to the inserted value. -/
theorem mapInsert_lookup_self (m : List (Nat × NodeConfig)) (key : Nat)
    (v : NodeConfig) : mapLookup (mapInsert m key v) key = some v := by
  induction m with
  | nil =>
    show mapLookup [(key, v)] key = some v
    rw [mapLookup, if_pos rfl]
  | cons p rest ih =>
    obtain ⟨k0, v0⟩ := p
    show mapLookup (if key < k0 then (key, v) :: (k0, v0) :: rest
      else if key = k0 then (key, v) :: rest
      else (k0, v0) :: mapInsert rest key v) key = some v
    by_cases h1 : key < k0
    · rw [if_pos h1, mapLookup, if_pos rfl]
    · rw [if_neg h1]
      by_cases h2 : key = k0
      · rw [if_pos h2, mapLookup, if_pos rfl]
      · rw [if_neg h2, mapLookup, if_neg (fun he => h2 he.symm)]
        exact ih

/-- Other keys are untouched by the insertion. -/
theorem mapInsert_lookup_ne (m : List (Nat × NodeConfig)) (key : Nat)
    (v : NodeConfig) (k : Nat) (hk : k ≠ key) :
    mapLookup (mapInsert m key v) k = mapLookup m k := by
  induction m with
  | nil =>
    show mapLookup [(key, v)] k = none
    rw [mapLookup, if_neg (fun he => hk he.symm), mapLookup]
  | cons p rest ih =>
    obtain ⟨k0, v0⟩ := p
    show mapLookup (if key < k0 then (key, v) :: (k0, v0) :: rest
      else if key = k0 then (key, v) :: rest
      else (k0, v0) :: mapInsert rest key v) k = _
    by_cases h1 : key < k0
    · rw [if_pos h1, mapLookup, if_neg (fun he => hk he.symm)]
    · rw [if_neg h1]
      by_cases h2 : key = k0
      · rw [if_pos h2, mapLookup, if_neg (fun he => hk he.symm), mapLookup,
          ← h2, if_neg (fun he => hk he.symm)]
      · rw [if_neg h2, mapLookup, mapLookup]
        by_cases h3 : k0 = k
        · rw [if_pos h3, if_pos h3]
        · rw [if_neg h3, if_neg h3]
          exact ih

end NodeManager

/-- C10: `createNode` rejects, with a typed error and in this check order, a
zero node id (`std::invalid_argument`), a duplicate node id, and creation at
the `MAX_NODES = 1000` limit (`std::runtime_error`); every rejection leaves
the node map exactly as it was (atomicity), and success adds exactly one
entry, keyed by the new node's id, leaving every other key's binding
unchanged. -/
theorem C10_createNode_atomic (config : NodeConfig)
    (nodes : List (Nat × NodeConfig)) :
    ((NodeManager.createNode config nodes).2 =
        some CreateNodeError.invalidArgument ↔ config.nodeId = 0) ∧
    ((NodeManager.createNode config nodes).2 =
        some CreateNodeError.duplicateId ↔
      config.nodeId ≠ 0 ∧
      NodeManager.mapContains nodes config.nodeId = true) ∧
    ((NodeManager.createNode config nodes).2 =
        some CreateNodeError.maxNodesReached ↔
      config.nodeId ≠ 0 ∧
      NodeManager.mapContains nodes config.nodeId = false ∧
      NodeManager.MAX_NODES ≤ nodes.length) ∧
    ((NodeManager.createNode config nodes).2 ≠ none →
      (NodeManager.createNode config nodes).1 = nodes) ∧
    ((NodeManager.createNode config nodes).2 = none →
      (NodeManager.createNode config nodes).1.length = nodes.length + 1 ∧
      NodeManager.mapLookup (NodeManager.createNode config nodes).1
        config.nodeId = some config ∧
      ∀ k, k ≠ config.nodeId →
        NodeManager.mapLookup (NodeManager.createNode config nodes).1 k =
          NodeManager.mapLookup nodes k) := by
  unfold NodeManager.createNode
  by_cases h1 : config.nodeId = 0
  · rw [if_pos h1]
    exact ⟨by simp [h1], by simp [h1], by simp [h1], fun _ => rfl, by simp⟩
  · rw [if_neg h1]
    by_cases h2 : NodeManager.mapContains nodes config.nodeId = true
    · rw [if_pos h2]
      exact ⟨by simp [h1], by simp [h1, h2], by simp [h2], fun _ => rfl,
        by simp⟩
    · have h2f : NodeManager.mapContains nodes config.nodeId = false := by
        cases hx : NodeManager.mapContains nodes config.nodeId
        · rfl
        · exact absurd hx h2
      rw [if_neg h2]
      by_cases h3 : NodeManager.MAX_NODES ≤ nodes.length
      · rw [if_pos h3]
        exact ⟨by simp [h1], by simp [h2f], by simp [h1, h2f, h3],
          fun _ => rfl, by simp⟩
      · rw [if_neg h3]
        refine ⟨by simp [h1], by simp [h2f], by simp [h3], by simp, ?_⟩
        intro _
        exact ⟨NodeManager.mapInsert_length_of_not_contains nodes
            config.nodeId config h2f,
          NodeManager.mapInsert_lookup_self nodes config.nodeId config,
          fun k hk => NodeManager.mapInsert_lookup_ne nodes config.nodeId
            config k hk⟩

/-- Node specification of the C10 witness. -/
def c10cfg : NodeConfig := { nodeId := 42 }

/-- C10 witness: creating node 42 in the empty manager. -/
theorem C10_createNode_witness :
    ((NodeManager.createNode c10cfg []).2 =
        some CreateNodeError.invalidArgument ↔ c10cfg.nodeId = 0) ∧
    ((NodeManager.createNode c10cfg []).2 =
        some CreateNodeError.duplicateId ↔
      c10cfg.nodeId ≠ 0 ∧
      NodeManager.mapContains [] c10cfg.nodeId = true) ∧
    ((NodeManager.createNode c10cfg []).2 =
        some CreateNodeError.maxNodesReached ↔
      c10cfg.nodeId ≠ 0 ∧
      NodeManager.mapContains [] c10cfg.nodeId = false ∧
      NodeManager.MAX_NODES ≤ ([] : List (Nat × NodeConfig)).length) ∧
    ((NodeManager.createNode c10cfg []).2 ≠ none →
      (NodeManager.createNode c10cfg []).1 = []) ∧
    ((NodeManager.createNode c10cfg []).2 = none →
      (NodeManager.createNode c10cfg []).1.length =
        ([] : List (Nat × NodeConfig)).length + 1 ∧
      NodeManager.mapLookup (NodeManager.createNode c10cfg []).1
        c10cfg.nodeId = some c10cfg ∧
      ∀ k, k ≠ c10cfg.nodeId →
        NodeManager.mapLookup (NodeManager.createNode c10cfg []).1 k =
          NodeManager.mapLookup [] k) :=
  C10_createNode_atomic c10cfg []
